import Mathlib

/-!
# Aurie object manager (`source/framework/Object Manager/object.cpp`)

A shallow embedding of the interface registry and of the lifecycle-callback
dispatcher, followed by the properties proved about it.

Modelling conventions.

* A `const char*` is modelled by the list of the bytes that precede its
  terminating NUL (`CStr`).
* Pointers to modules, to interface objects and to routines are addresses
  (`Nat`), `0` being `nullptr`.  Module objects live in `State.heap`; the
  nodes of `g_LdrModuleList` are the addresses listed in
  `State.g_LdrModuleList`.  The nodes of a `std::list` are distinct objects,
  which is the field `State.nodup`.
* The virtual calls `Interface->Create()`, `Interface->Destroy()` and the
  module operation callbacks are opaque: every call is appended to
  `State.trace`, the status that `Create()` reports is read from
  `State.CreateStatus`, and the callee is taken not to re-enter the object
  manager.
-/

namespace Aurie

/-! ## Data model -/

/-- The content of a NUL-terminated C string: its bytes before the terminator. -/
abbrev CStr := List Nat

/-- Address of an `AurieModule`. -/
abbrev ModulePtr := Nat

/-- Address of an `AurieInterfaceBase`. -/
abbrev InterfacePtr := Nat

/-- Modelled from the spec: the status enumeration `AurieStatus` is declared in a header
that is not part of the sources at hand.  The four statuses that `object.cpp` names are
constructors of their own, every other status is `AURIE_OTHER code`. -/
inductive AurieStatus where
  | AURIE_SUCCESS
  | AURIE_ACCESS_DENIED
  | AURIE_OBJECT_ALREADY_EXISTS
  | AURIE_OBJECT_NOT_FOUND
  | AURIE_OTHER (code : Nat)
  deriving DecidableEq, Repr

open AurieStatus

/-- Modelled from the spec: `AurieSuccess` is declared in a header that is not part of the
sources at hand; a status is a success exactly when it is the success status. -/
def AurieSuccess (Status : AurieStatus) : Bool :=
  decide (Status = AURIE_SUCCESS)

/-- Modelled from the spec: `AurieModuleOperationType`, the classified lifecycle
transition handed to the callbacks (declared in a header that is not at hand). -/
inductive AurieModuleOperationType where
  | AURIE_OPERATION_UNKNOWN
  | AURIE_OPERATION_PREINITIALIZE
  | AURIE_OPERATION_INITIALIZE
  | AURIE_OPERATION_UNLOAD
  deriving DecidableEq, Repr

open AurieModuleOperationType

/-- Modelled from the spec: `AurieInterfaceTableEntry`, the (name, interface, owner)
triple of an interface table (declared in a header that is not at hand). -/
structure AurieInterfaceTableEntry where
  Interface : InterfacePtr
  InterfaceName : CStr
  OwnerModule : ModulePtr
  deriving DecidableEq, Repr

/-- Modelled from the spec: the fields of `AurieModule` that `object.cpp` reads or writes
(the class is declared in a header that is not at hand): the interface table in
insertion order, the registered callback (`0` when none) and the three entry points. -/
structure AurieModule where
  InterfaceTable : List AurieInterfaceTableEntry
  ModuleOperationCallback : Nat
  ModulePreinitialize : Nat
  ModuleInitialize : Nat
  ModuleUnload : Nat
  deriving DecidableEq, Repr

/-- One opaque call made by the object manager. -/
inductive Event where
  | Create (Interface : InterfacePtr)
  | Destroy (Interface : InterfacePtr)
  | Callback (Listener : ModulePtr) (Routine : Nat) (AffectedModule : ModulePtr)
      (OperationType : AurieModuleOperationType) (IsFutureCall : Bool)
  deriving DecidableEq, Repr

/-- The process state the object manager works on. -/
structure State where
  heap : ModulePtr → AurieModule
  g_LdrModuleList : List ModulePtr
  nodup : g_LdrModuleList.Nodup
  CreateStatus : InterfacePtr → List Event → AurieStatus
  trace : List Event

/-! ## C library -/

/-- The C library `tolower` in the "C" locale, on a byte. -/
def tolower (c : Nat) : Nat :=
  if 65 ≤ c ∧ c ≤ 90 then c + 32 else c

/-- The C library `strcmp`: negative, zero or positive as the first string is less than,
equal to or greater than the second (the sign is all the C standard fixes). -/
def strcmp : CStr → CStr → Int
  | [], [] => 0
  | [], _ :: _ => -1
  | _ :: _, [] => 1
  | a :: as, b :: bs => if a < b then -1 else if b < a then 1 else strcmp as bs

/-- The C runtime `_stricmp`: `strcmp` on the lowercase versions of both strings. -/
def _stricmp (string1 string2 : CStr) : Int :=
  strcmp (string1.map tolower) (string2.map tolower)

/-! ## The object manager -/

/-- Write `M` at address `Module`. -/
def writeModule (heap : ModulePtr → AurieModule) (Module : ModulePtr) (M : AurieModule) :
    ModulePtr → AurieModule :=
  fun p => if p = Module then M else heap p

/-- The comparison lambda of `ObpLookupInterfaceOwner`. -/
def nameMatches (CaseInsensitive : Bool) (InterfaceName : CStr)
    (entry : AurieInterfaceTableEntry) : Bool :=
  if CaseInsensitive then
    _stricmp entry.InterfaceName InterfaceName == 0
  else
    strcmp entry.InterfaceName InterfaceName == 0

/-- The loop of `ObpLookupInterfaceOwner` over the loaded modules: `std::find_if` on each
module's table, the first hit wins. -/
def lookupLoop (heap : ModulePtr → AurieModule) (InterfaceName : CStr) (CaseInsensitive : Bool) :
    List ModulePtr → Except AurieStatus (ModulePtr × AurieInterfaceTableEntry)
  | [] => .error AURIE_OBJECT_NOT_FOUND
  | loaded_module :: rest =>
    match (heap loaded_module).InterfaceTable.find? (nameMatches CaseInsensitive InterfaceName) with
    | some entry => .ok (loaded_module, entry)
    | none => lookupLoop heap InterfaceName CaseInsensitive rest

/-- `Internal::ObpLookupInterfaceOwner`: `.ok (Module, TableEntry)` stands for the status
`AURIE_SUCCESS` with both out-parameters set, `.error st` for the status `st` with the
out-parameters untouched. -/
def ObpLookupInterfaceOwner (s : State) (InterfaceName : CStr) (CaseInsensitive : Bool) :
    Except AurieStatus (ModulePtr × AurieInterfaceTableEntry) :=
  lookupLoop s.heap InterfaceName CaseInsensitive s.g_LdrModuleList

/-- The status an `ObpLookupInterfaceOwner` result stands for. -/
def lookupStatus : Except AurieStatus (ModulePtr × AurieInterfaceTableEntry) → AurieStatus
  | .ok _ => AURIE_SUCCESS
  | .error st => st

/-- `ObInterfaceExists`. -/
def ObInterfaceExists (s : State) (InterfaceName : CStr) : Bool :=
  AurieSuccess (lookupStatus (ObpLookupInterfaceOwner s InterfaceName true))

/-- `Internal::ObpAddInterfaceToTable`. -/
def ObpAddInterfaceToTable (s : State) (Module : ModulePtr) (Entry : AurieInterfaceTableEntry) :
    AurieStatus × State :=
  let M : AurieModule :=
    { s.heap Module with InterfaceTable := (s.heap Module).InterfaceTable ++ [Entry] }
  (AURIE_SUCCESS, { s with heap := writeModule s.heap Module M })

/-- `ObCreateInterface`. -/
def ObCreateInterface (s : State) (Module : ModulePtr) (Interface : InterfacePtr)
    (InterfaceName : CStr) : AurieStatus × State :=
  if ObInterfaceExists s InterfaceName then
    (AURIE_OBJECT_ALREADY_EXISTS, s)
  else
    let table_entry : AurieInterfaceTableEntry :=
      { Interface := Interface, InterfaceName := InterfaceName, OwnerModule := Module }
    let last_status := s.CreateStatus Interface s.trace
    let s1 : State := { s with trace := s.trace ++ [Event.Create Interface] }
    if !AurieSuccess last_status then
      (last_status, s1)
    else
      ObpAddInterfaceToTable s1 Module table_entry

/-- `Internal::ObpDestroyInterface`. -/
def ObpDestroyInterface (s : State) (Module : ModulePtr) (Interface : InterfacePtr)
    (Notify : Bool) : AurieStatus × State :=
  let s1 : State := if Notify then { s with trace := s.trace ++ [Event.Destroy Interface] } else s
  let M : AurieModule :=
    { s1.heap Module with
      InterfaceTable :=
        (s1.heap Module).InterfaceTable.filter (fun entry => !(entry.Interface == Interface)) }
  (AURIE_SUCCESS, { s1 with heap := writeModule s1.heap Module M })

/-- `Internal::ObpDestroyInterfaceByName`. -/
def ObpDestroyInterfaceByName (s : State) (InterfaceName : CStr) : AurieStatus × State :=
  match ObpLookupInterfaceOwner s InterfaceName true with
  | .error last_status => (last_status, s)
  | .ok (owner_module, table_entry) =>
    ObpDestroyInterface s owner_module table_entry.Interface true

/-- `ObGetInterface`: `.ok Interface` stands for `AURIE_SUCCESS` with the out-parameter
set, `.error st` for the status `st` with the out-parameter untouched. -/
def ObGetInterface (s : State) (InterfaceName : CStr) : Except AurieStatus InterfacePtr :=
  match ObpLookupInterfaceOwner s InterfaceName true with
  | .error last_status => .error last_status
  | .ok (_, interface_entry) => .ok interface_entry.Interface

/-- `ObDestroyInterface`. -/
def ObDestroyInterface (s : State) (Module : ModulePtr) (InterfaceName : CStr) :
    AurieStatus × State :=
  match ObpLookupInterfaceOwner s InterfaceName true with
  | .error last_status => (last_status, s)
  | .ok (owner_module, table_entry) =>
    if owner_module ≠ Module then
      (AURIE_ACCESS_DENIED, s)
    else
      (AURIE_SUCCESS, (ObpDestroyInterface s Module table_entry.Interface true).2)

/-- `Internal::ObpSetModuleOperationCallback`. -/
def ObpSetModuleOperationCallback (s : State) (Module : ModulePtr) (CallbackRoutine : Nat) :
    State :=
  let M : AurieModule := { s.heap Module with ModuleOperationCallback := CallbackRoutine }
  { s with heap := writeModule s.heap Module M }

/-- The classification at the head of `ObpDispatchModuleOperationCallbacks`. -/
def operationType (AffectedModule : AurieModule) (Routine : Nat) : AurieModuleOperationType :=
  if Routine = AffectedModule.ModulePreinitialize then AURIE_OPERATION_PREINITIALIZE
  else if Routine = AffectedModule.ModuleInitialize then AURIE_OPERATION_INITIALIZE
  else if Routine = AffectedModule.ModuleUnload then AURIE_OPERATION_UNLOAD
  else AURIE_OPERATION_UNKNOWN

/-- The loop of `ObpDispatchModuleOperationCallbacks` over the loaded modules; the calls
made are appended to the trace `tr`. -/
def dispatchLoop (heap : ModulePtr → AurieModule) (AffectedModule : ModulePtr)
    (current_operation_type : AurieModuleOperationType) (IsFutureCall : Bool) :
    List ModulePtr → List Event → List Event
  | [], tr => tr
  | loaded_module :: rest, tr =>
    if (heap loaded_module).ModuleOperationCallback = 0 then
      dispatchLoop heap AffectedModule current_operation_type IsFutureCall rest tr
    else
      dispatchLoop heap AffectedModule current_operation_type IsFutureCall rest
        (tr ++ [Event.Callback loaded_module (heap loaded_module).ModuleOperationCallback
          AffectedModule current_operation_type IsFutureCall])

/-- `Internal::ObpDispatchModuleOperationCallbacks`. -/
def ObpDispatchModuleOperationCallbacks (s : State) (AffectedModule : ModulePtr)
    (Routine : Nat) (IsFutureCall : Bool) : State :=
  let current_operation_type := operationType (s.heap AffectedModule) Routine
  let calls := dispatchLoop s.heap AffectedModule current_operation_type IsFutureCall
  { s with trace := calls s.g_LdrModuleList s.trace }

/-! ## Vocabulary of the properties -/

/-- Two names are equal ignoring ASCII case. -/
def EqIgnoreCase (a b : CStr) : Prop :=
  a.map tolower = b.map tolower

instance (a b : CStr) : Decidable (EqIgnoreCase a b) :=
  inferInstanceAs (Decidable (a.map tolower = b.map tolower))

/-- The name `a` matches the name `b` under a comparison mode: equality ignoring ASCII
case when the mode is case-insensitive, equality otherwise. -/
def NameMatch (CaseInsensitive : Bool) (a b : CStr) : Prop :=
  if CaseInsensitive then EqIgnoreCase a b else a = b

instance (ci : Bool) (a b : CStr) : Decidable (NameMatch ci a b) := by
  unfold NameMatch
  exact inferInstance

/-- The combined tables of the loaded modules, in registry order. -/
def allEntries (s : State) : List AurieInterfaceTableEntry :=
  s.g_LdrModuleList.flatMap (fun m => (s.heap m).InterfaceTable)

/-- Registry-wide name uniqueness: no two entries of the combined tables of the loaded
modules have names that are equal ignoring ASCII case. -/
def UniqueNames (s : State) : Prop :=
  (allEntries s).Pairwise (fun a b => ¬ EqIgnoreCase a.InterfaceName b.InterfaceName)

instance (s : State) : Decidable (UniqueNames s) :=
  inferInstanceAs (Decidable (List.Pairwise _ _))

/-- The state `ObpDestroyInterface` leaves behind when it notifies. -/
def afterDestroy (s : State) (M : ModulePtr) (obj : InterfacePtr) : State :=
  { s with
    trace := s.trace ++ [Event.Destroy obj]
    heap := writeModule s.heap M
      { s.heap M with
        InterfaceTable :=
          (s.heap M).InterfaceTable.filter (fun entry => !(entry.Interface == obj)) } }

/-- The event is a call of the callback registered by the module `Listener`. -/
def Event.isCallbackOf (Listener : ModulePtr) : Event → Bool
  | .Callback l _ _ _ _ => l == Listener
  | _ => false

/-- The loaded module has a registered callback. -/
def hasCallback (s : State) (m : ModulePtr) : Bool :=
  decide ((s.heap m).ModuleOperationCallback ≠ 0)

/-- The operations of the call surface of the object manager. -/
inductive Op where
  | Publish (Module : ModulePtr) (Interface : InterfacePtr) (InterfaceName : CStr)
  | Exists (InterfaceName : CStr)
  | Get (InterfaceName : CStr)
  | DestroyByOwner (Module : ModulePtr) (InterfaceName : CStr)
  | DestroyByName (InterfaceName : CStr)
  | RegisterCallback (Module : ModulePtr) (CallbackRoutine : Nat)
  | Dispatch (AffectedModule : ModulePtr) (Routine : Nat) (IsFutureCall : Bool)

/-- The state an operation leaves behind.  `ObInterfaceExists` and `ObGetInterface` write
nothing, so they leave the state they read. -/
def Op.run (s : State) : Op → State
  | .Publish Module Interface InterfaceName =>
    (ObCreateInterface s Module Interface InterfaceName).2
  | .Exists _ => s
  | .Get _ => s
  | .DestroyByOwner Module InterfaceName => (ObDestroyInterface s Module InterfaceName).2
  | .DestroyByName InterfaceName => (ObpDestroyInterfaceByName s InterfaceName).2
  | .RegisterCallback Module CallbackRoutine =>
    ObpSetModuleOperationCallback s Module CallbackRoutine
  | .Dispatch AffectedModule Routine IsFutureCall =>
    ObpDispatchModuleOperationCallbacks s AffectedModule Routine IsFutureCall

/-- The states reachable from `s₀` by operations of the call surface. -/
inductive Reachable (s₀ : State) : State → Prop where
  | start : Reachable s₀ s₀
  | step (s : State) (op : Op) : Reachable s₀ s → Reachable s₀ (op.run s)

/-- Every loaded module's interface table is empty. -/
def TablesEmpty (s : State) : Prop :=
  ∀ m ∈ s.g_LdrModuleList, (s.heap m).InterfaceTable = []

/-- The owner invariant: every entry stored in a module's interface table names that
module as its owner. -/
def OwnerInvariant (s : State) : Prop :=
  ∀ m, ∀ e ∈ (s.heap m).InterfaceTable, e.OwnerModule = m

/-- Modelled from the spec: the unload-driven purge, which the module loader performs and
`object.cpp` does not contain ("entries are removed ... en masse when the owning module
unloads", "unloading a module purges every entry in its table").  The table of the module
is emptied; `RemoveFromList` tells whether the loader also takes the module off
`g_LdrModuleList`. -/
def UnloadModule (s : State) (Module : ModulePtr) (RemoveFromList : Bool) : State :=
  let M : AurieModule := { s.heap Module with InterfaceTable := [] }
  { s with
    heap := writeModule s.heap Module M
    g_LdrModuleList :=
      if RemoveFromList then s.g_LdrModuleList.filter (fun m => !(m == Module))
      else s.g_LdrModuleList
    nodup := by
      split
      · exact s.nodup.filter _
      · exact s.nodup }

/-! ## Sample states -/

/-- A module with an empty table, no callback and three distinct entry points. -/
def freshModule : AurieModule :=
  { InterfaceTable := [], ModuleOperationCallback := 0,
    ModulePreinitialize := 201, ModuleInitialize := 202, ModuleUnload := 203 }

/-- The name "Net". -/
def nameNet : CStr := [78, 101, 116]

/-- The name "net". -/
def nameNetLower : CStr := [110, 101, 116]

/-- The name "gfx". -/
def nameGfxLower : CStr := [103, 102, 120]

/-- The name "Gfx". -/
def nameGfx : CStr := [71, 102, 120]

/-- Module `1` has published "Net" (object `10`) and registered the callback `100`;
module `2` is loaded and idle; every other address holds an idle module. -/
def sampleHeap : ModulePtr → AurieModule
  | 1 => { freshModule with
            InterfaceTable := [{ Interface := 10, InterfaceName := nameNet, OwnerModule := 1 }],
            ModuleOperationCallback := 100 }
  | _ => freshModule

/-- Modules `1` and `2` are loaded; the object `66` fails its `Create()` with status
`AURIE_OTHER 7`, every other object succeeds. -/
def sampleState : State :=
  { heap := sampleHeap, g_LdrModuleList := [1, 2], nodup := by decide,
    CreateStatus := fun Interface _ => if Interface = 66 then AURIE_OTHER 7 else AURIE_SUCCESS,
    trace := [] }

/-- Modules `1` and `2` are loaded, with empty tables. -/
def emptyState : State :=
  { heap := fun _ => freshModule, g_LdrModuleList := [1, 2], nodup := by decide,
    CreateStatus := fun _ _ => AURIE_SUCCESS, trace := [] }

/-- Modules `1` and `2` are loaded and each holds an entry for the same object `10`:
"Net" in module `1`, "Gfx" in module `2`. -/
def sharedState : State :=
  { heap := fun m =>
      if m = 1 then
        { freshModule with
          InterfaceTable := [{ Interface := 10, InterfaceName := nameNet, OwnerModule := 1 }] }
      else if m = 2 then
        { freshModule with
          InterfaceTable := [{ Interface := 10, InterfaceName := nameGfx, OwnerModule := 2 }] }
      else freshModule,
    g_LdrModuleList := [1, 2], nodup := by decide,
    CreateStatus := fun _ _ => AURIE_SUCCESS, trace := [] }

/-- Modules `1` and `2` are loaded, module `1` with the callback `100`.  The preinitialize
and unload entry points of module `1` are both null; the initialize and unload entry
points of module `2` are both `302`. -/
def entryState : State :=
  { heap := fun m =>
      if m = 1 then
        { InterfaceTable := [], ModuleOperationCallback := 100,
          ModulePreinitialize := 0, ModuleInitialize := 202, ModuleUnload := 0 }
      else if m = 2 then
        { InterfaceTable := [], ModuleOperationCallback := 0,
          ModulePreinitialize := 301, ModuleInitialize := 302, ModuleUnload := 302 }
      else freshModule,
    g_LdrModuleList := [1, 2], nodup := by decide,
    CreateStatus := fun _ _ => AURIE_SUCCESS, trace := [] }

/-! ## Lemmas on the C library model -/

theorem strcmp_eq_zero_iff (a b : CStr) : strcmp a b = 0 ↔ a = b := by
  induction a generalizing b with
  | nil => cases b <;> simp [strcmp]
  | cons x xs ih =>
    cases b with
    | nil => simp [strcmp]
    | cons y ys =>
      simp only [strcmp, List.cons.injEq]
      split_ifs with h1 h2
      · constructor
        · intro h; exact absurd h (by decide)
        · rintro ⟨rfl, -⟩; exact absurd h1 (lt_irrefl _)
      · constructor
        · intro h; exact absurd h (by decide)
        · rintro ⟨rfl, -⟩; exact absurd h2 (lt_irrefl _)
      · have hxy : x = y := le_antisymm (not_lt.mp h2) (not_lt.mp h1)
        rw [ih ys]
        exact ⟨fun h => ⟨hxy, h⟩, fun h => h.2⟩

theorem stricmp_eq_zero_iff (a b : CStr) : _stricmp a b = 0 ↔ EqIgnoreCase a b := by
  unfold _stricmp EqIgnoreCase
  exact strcmp_eq_zero_iff _ _

theorem nameMatches_iff (ci : Bool) (N : CStr) (e : AurieInterfaceTableEntry) :
    nameMatches ci N e = true ↔ NameMatch ci e.InterfaceName N := by
  cases ci
  · simp [nameMatches, NameMatch, strcmp_eq_zero_iff]
  · simp [nameMatches, NameMatch, stricmp_eq_zero_iff]

theorem EqIgnoreCase.symm {a b : CStr} (h : EqIgnoreCase a b) : EqIgnoreCase b a :=
  Eq.symm h

theorem EqIgnoreCase.trans {a b c : CStr} (h₁ : EqIgnoreCase a b) (h₂ : EqIgnoreCase b c) :
    EqIgnoreCase a c :=
  Eq.trans h₁ h₂

/-! ## Lemmas on the lookup -/

theorem lookupLoop_error_iff (heap : ModulePtr → AurieModule) (N : CStr) (ci : Bool)
    (l : List ModulePtr) (st : AurieStatus) :
    lookupLoop heap N ci l = .error st ↔
      st = AURIE_OBJECT_NOT_FOUND ∧
        ∀ m ∈ l, ∀ e ∈ (heap m).InterfaceTable, ¬ NameMatch ci e.InterfaceName N := by
  induction l with
  | nil =>
    simp only [lookupLoop, Except.error.injEq, List.not_mem_nil, false_imp_iff, implies_true,
      and_true]
    exact eq_comm
  | cons m rest ih =>
    simp only [lookupLoop, List.mem_cons, forall_eq_or_imp]
    cases hf : (heap m).InterfaceTable.find? (nameMatches ci N) with
    | some e =>
      have hp := List.find?_some hf
      have hmem := List.mem_of_find?_eq_some hf
      constructor
      · intro h; cases h
      · rintro ⟨-, hall, -⟩
        exact absurd ((nameMatches_iff ci N e).mp hp) (hall e hmem)
    | none =>
      simp only [ih]
      rw [List.find?_eq_none] at hf
      constructor
      · rintro ⟨h1, h2⟩
        exact ⟨h1, fun e he hm => hf e he ((nameMatches_iff ci N e).mpr hm), h2⟩
      · rintro ⟨h1, -, h2⟩
        exact ⟨h1, h2⟩

theorem lookupLoop_ok_iff (heap : ModulePtr → AurieModule) (N : CStr) (ci : Bool)
    (l : List ModulePtr) (m : ModulePtr) (e : AurieInterfaceTableEntry) :
    lookupLoop heap N ci l = .ok (m, e) ↔
      ∃ l₁ l₂ t₁ t₂, l = l₁ ++ m :: l₂ ∧
        (∀ m' ∈ l₁, ∀ x ∈ (heap m').InterfaceTable, ¬ NameMatch ci x.InterfaceName N) ∧
        (heap m).InterfaceTable = t₁ ++ e :: t₂ ∧
        (∀ x ∈ t₁, ¬ NameMatch ci x.InterfaceName N) ∧
        NameMatch ci e.InterfaceName N := by
  induction l with
  | nil => simp [lookupLoop]
  | cons a rest ih =>
    simp only [lookupLoop]
    cases hf : (heap a).InterfaceTable.find? (nameMatches ci N) with
    | some x =>
      simp only [Except.ok.injEq, Prod.mk.injEq]
      rw [List.find?_eq_some] at hf
      obtain ⟨hx, t₁, t₂, ht, hpre⟩ := hf
      have hpre' : ∀ y ∈ t₁, ¬ NameMatch ci y.InterfaceName N := by
        intro y hy hm
        have := hpre y hy
        rw [(nameMatches_iff ci N y).mpr hm] at this
        exact absurd this (by decide)
      constructor
      · rintro ⟨rfl, rfl⟩
        exact ⟨[], rest, t₁, t₂, rfl, by simp, ht, hpre', (nameMatches_iff ci N x).mp hx⟩
      · rintro ⟨l₁, l₂, u₁, u₂, hl, hno, hu, hupre, hme⟩
        cases l₁ with
        | nil =>
          simp only [List.nil_append, List.cons.injEq] at hl
          obtain ⟨rfl, -⟩ := hl
          refine ⟨rfl, ?_⟩
          -- both decompositions single out the first matching entry
          have h1 : (heap a).InterfaceTable.find? (nameMatches ci N) = some x := by
            rw [List.find?_eq_some]; exact ⟨hx, t₁, t₂, ht, hpre⟩
          have h2 : (heap a).InterfaceTable.find? (nameMatches ci N) = some e := by
            rw [List.find?_eq_some]
            refine ⟨(nameMatches_iff ci N e).mpr hme, u₁, u₂, hu, ?_⟩
            intro y hy
            have := hupre y hy
            rw [← nameMatches_iff] at this
            simpa using this
          rw [h1] at h2
          exact Option.some.inj h2
        | cons b l₁ =>
          simp only [List.cons_append, List.cons.injEq] at hl
          obtain ⟨rfl, -⟩ := hl
          exfalso
          have hxmem : x ∈ (heap a).InterfaceTable := by rw [ht]; simp
          exact hno a (by simp) x hxmem ((nameMatches_iff ci N x).mp hx)
    | none =>
      rw [ih]
      rw [List.find?_eq_none] at hf
      have hno_a : ∀ x ∈ (heap a).InterfaceTable, ¬ NameMatch ci x.InterfaceName N :=
        fun x hx hm => hf x hx ((nameMatches_iff ci N x).mpr hm)
      constructor
      · rintro ⟨l₁, l₂, t₁, t₂, hl, hno, ht, hpre, hme⟩
        refine ⟨a :: l₁, l₂, t₁, t₂, by simp [hl], ?_, ht, hpre, hme⟩
        intro m' hm'
        rcases List.mem_cons.mp hm' with rfl | h
        · exact hno_a
        · exact hno m' h
      · rintro ⟨l₁, l₂, t₁, t₂, hl, hno, ht, hpre, hme⟩
        cases l₁ with
        | nil =>
          simp only [List.nil_append, List.cons.injEq] at hl
          obtain ⟨rfl, -⟩ := hl
          exfalso
          exact hno_a e (by rw [ht]; simp) hme
        | cons b l₁ =>
          simp only [List.cons_append, List.cons.injEq] at hl
          obtain ⟨rfl, rfl⟩ := hl
          exact ⟨l₁, l₂, t₁, t₂, rfl, fun m' hm' => hno m' (by simp [hm']), ht, hpre, hme⟩

theorem lookup_ok_of_match (s : State) (N : CStr) (ci : Bool)
    (h : ∃ m ∈ s.g_LdrModuleList, ∃ e ∈ (s.heap m).InterfaceTable,
      NameMatch ci e.InterfaceName N) :
    ∃ l₁ M l₂ t₁ e t₂,
      s.g_LdrModuleList = l₁ ++ M :: l₂ ∧
      (∀ m ∈ l₁, ∀ x ∈ (s.heap m).InterfaceTable, ¬ NameMatch ci x.InterfaceName N) ∧
      (s.heap M).InterfaceTable = t₁ ++ e :: t₂ ∧
      (∀ x ∈ t₁, ¬ NameMatch ci x.InterfaceName N) ∧
      NameMatch ci e.InterfaceName N ∧
      ObpLookupInterfaceOwner s N ci = .ok (M, e) := by
  unfold ObpLookupInterfaceOwner
  obtain ⟨m, hm, e, he, hme⟩ := h
  cases h : lookupLoop s.heap N ci s.g_LdrModuleList with
  | error st =>
    exact absurd hme (((lookupLoop_error_iff _ _ _ _ _).mp h).2 m hm e he)
  | ok r =>
    obtain ⟨M, e'⟩ := r
    obtain ⟨l₁, l₂, t₁, t₂, hl, hno, ht, hpre, hmatch⟩ :=
      (lookupLoop_ok_iff _ _ _ _ _ _).mp h
    exact ⟨l₁, M, l₂, t₁, e', t₂, hl, hno, ht, hpre, hmatch, rfl⟩

theorem exists_false_iff (s : State) (N : CStr) :
    ObInterfaceExists s N = false ↔
      ∀ m ∈ s.g_LdrModuleList, ∀ e ∈ (s.heap m).InterfaceTable,
        ¬ EqIgnoreCase e.InterfaceName N := by
  unfold ObInterfaceExists ObpLookupInterfaceOwner
  cases h : lookupLoop s.heap N true s.g_LdrModuleList with
  | error st =>
    obtain ⟨rfl, hall⟩ := (lookupLoop_error_iff _ _ _ _ _).mp h
    simp only [lookupStatus, AurieSuccess, NameMatch, if_true] at hall ⊢
    simpa using hall
  | ok r =>
    obtain ⟨m, e⟩ := r
    obtain ⟨l₁, l₂, t₁, t₂, hl, -, ht, -, hme⟩ := (lookupLoop_ok_iff _ _ _ _ _ _).mp h
    simp only [lookupStatus, AurieSuccess, decide_True, Bool.true_eq_false, false_iff]
    intro hall
    exact hall m (by rw [hl]; simp) e (by rw [ht]; simp) hme

theorem exists_true_iff (s : State) (N : CStr) :
    ObInterfaceExists s N = true ↔
      ∃ m ∈ s.g_LdrModuleList, ∃ e ∈ (s.heap m).InterfaceTable,
        EqIgnoreCase e.InterfaceName N := by
  rw [← Bool.not_eq_false, exists_false_iff]
  push_neg
  rfl

theorem writeModule_same (heap : ModulePtr → AurieModule) (M : ModulePtr) (v : AurieModule) :
    writeModule heap M v M = v := by
  simp [writeModule]

theorem writeModule_other (heap : ModulePtr → AurieModule) (M : ModulePtr) (v : AurieModule)
    (m : ModulePtr) (h : m ≠ M) : writeModule heap M v m = heap m := by
  simp [writeModule, h]

theorem publish_success_eq (s : State) (M : ModulePtr) (obj : InterfacePtr) (N : CStr)
    (hN : ObInterfaceExists s N = false)
    (hC : AurieSuccess (s.CreateStatus obj s.trace) = true) :
    ObCreateInterface s M obj N =
      (AURIE_SUCCESS,
        { s with
          trace := s.trace ++ [Event.Create obj]
          heap := writeModule s.heap M
            { s.heap M with
              InterfaceTable := (s.heap M).InterfaceTable ++
                [{ Interface := obj, InterfaceName := N, OwnerModule := M }] } }) := by
  simp [ObCreateInterface, ObpAddInterfaceToTable, hN, hC]

theorem getInterface_of_lookup (s : State) (N : CStr) (m : ModulePtr)
    (e : AurieInterfaceTableEntry) (h : ObpLookupInterfaceOwner s N true = .ok (m, e)) :
    ObGetInterface s N = .ok e.Interface := by
  simp [ObGetInterface, h]

theorem exists_of_lookup (s : State) (N : CStr) (m : ModulePtr)
    (e : AurieInterfaceTableEntry) (h : ObpLookupInterfaceOwner s N true = .ok (m, e)) :
    ObInterfaceExists s N = true := by
  simp [ObInterfaceExists, h, lookupStatus, AurieSuccess]

theorem lookup_error_of_not_exists (s : State) (N : CStr) (h : ObInterfaceExists s N = false) :
    ObpLookupInterfaceOwner s N true = .error AURIE_OBJECT_NOT_FOUND := by
  unfold ObpLookupInterfaceOwner
  rw [lookupLoop_error_iff]
  rw [exists_false_iff] at h
  exact ⟨rfl, fun m hm e he => by simpa [NameMatch] using h m hm e he⟩

theorem destroyInterface_notify_eq (s : State) (M : ModulePtr) (obj : InterfacePtr) :
    ObpDestroyInterface s M obj true = (AURIE_SUCCESS, afterDestroy s M obj) := by
  simp [ObpDestroyInterface, afterDestroy]

theorem destroy_by_owner_eq (s : State) (N : CStr) (M : ModulePtr)
    (e : AurieInterfaceTableEntry) (h : ObpLookupInterfaceOwner s N true = .ok (M, e)) :
    ObDestroyInterface s M N = (AURIE_SUCCESS, afterDestroy s M e.Interface) := by
  simp [ObDestroyInterface, h, destroyInterface_notify_eq]

theorem destroy_by_name_eq (s : State) (N : CStr) (M : ModulePtr)
    (e : AurieInterfaceTableEntry) (h : ObpLookupInterfaceOwner s N true = .ok (M, e)) :
    ObpDestroyInterfaceByName s N = (AURIE_SUCCESS, afterDestroy s M e.Interface) := by
  simp [ObpDestroyInterfaceByName, h, destroyInterface_notify_eq]

theorem mem_table_afterDestroy (s : State) (M : ModulePtr) (obj : InterfacePtr)
    (m : ModulePtr) (x : AurieInterfaceTableEntry)
    (hx : x ∈ ((afterDestroy s M obj).heap m).InterfaceTable) :
    x ∈ (s.heap m).InterfaceTable ∧ (m = M → x.Interface ≠ obj) := by
  by_cases hm : m = M
  · subst hm
    simp only [afterDestroy, writeModule_same, List.mem_filter, Bool.not_eq_true',
      beq_eq_false_iff_ne] at hx
    exact ⟨hx.1, fun _ => hx.2⟩
  · simp only [afterDestroy, writeModule_other _ _ _ _ hm] at hx
    exact ⟨hx, fun h => absurd h hm⟩

theorem uniqueNames_iff (s : State) :
    UniqueNames s ↔
      (∀ m ∈ s.g_LdrModuleList, (s.heap m).InterfaceTable.Pairwise
        (fun a b => ¬ EqIgnoreCase a.InterfaceName b.InterfaceName)) ∧
      s.g_LdrModuleList.Pairwise (fun m₁ m₂ =>
        ∀ x ∈ (s.heap m₁).InterfaceTable, ∀ y ∈ (s.heap m₂).InterfaceTable,
          ¬ EqIgnoreCase x.InterfaceName y.InterfaceName) := by
  unfold UniqueNames allEntries
  exact List.pairwise_flatMap

/-- Under name uniqueness, an entry at any other place than the one of `e` has a name that
differs from the name of `e` even ignoring case. -/
theorem unique_other_entry (s : State) (hU : UniqueNames s) (M : ModulePtr)
    (e : AurieInterfaceTableEntry) (t₁ t₂ : List AurieInterfaceTableEntry)
    (hM : M ∈ s.g_LdrModuleList) (ht : (s.heap M).InterfaceTable = t₁ ++ e :: t₂)
    (m : ModulePtr) (hm : m ∈ s.g_LdrModuleList) (x : AurieInterfaceTableEntry)
    (hx : x ∈ (s.heap m).InterfaceTable) (hplace : m ≠ M ∨ x ∈ t₁ ++ t₂) :
    ¬ EqIgnoreCase x.InterfaceName e.InterfaceName := by
  rw [uniqueNames_iff] at hU
  obtain ⟨htab, hmod⟩ := hU
  have he : e ∈ (s.heap M).InterfaceTable := by rw [ht]; simp
  by_cases hmM : m = M
  · subst hmM
    have hx' : x ∈ t₁ ++ t₂ := by
      rcases hplace with h | h
      · exact absurd rfl h
      · exact h
    have hp := htab m hm
    rw [ht, List.pairwise_append] at hp
    obtain ⟨-, hp₂, hp₁₂⟩ := hp
    rcases List.mem_append.mp hx' with h | h
    · exact hp₁₂ x h e (by simp)
    · intro hxe
      exact (List.rel_of_pairwise_cons hp₂ h) (EqIgnoreCase.symm hxe)
  · have hsym : Symmetric (fun m₁ m₂ : ModulePtr =>
        ∀ x ∈ (s.heap m₁).InterfaceTable, ∀ y ∈ (s.heap m₂).InterfaceTable,
          ¬ EqIgnoreCase x.InterfaceName y.InterfaceName) := by
      intro a b hab x hx y hy hxy
      exact hab y hy x hx (EqIgnoreCase.symm hxy)
    exact List.Pairwise.forall hsym hmod hm hM hmM x hx e he

/-! ## Publishing -/

/-- C1: when some loaded module's table already holds an entry whose name equals `N`
ignoring ASCII case, `ObCreateInterface` returns `AURIE_OBJECT_ALREADY_EXISTS` for every
module and every interface object, makes no call (in particular no `Create()`), and leaves
every module, hence every interface table, as it was. -/
theorem publish_existing_name_rejected (s : State) (M : ModulePtr) (obj : InterfacePtr)
    (N : CStr)
    (h : ∃ m ∈ s.g_LdrModuleList, ∃ e ∈ (s.heap m).InterfaceTable,
      EqIgnoreCase e.InterfaceName N) :
    (ObCreateInterface s M obj N).1 = AURIE_OBJECT_ALREADY_EXISTS ∧
      (ObCreateInterface s M obj N).2.trace = s.trace ∧
      (∀ m, ((ObCreateInterface s M obj N).2.heap m).InterfaceTable =
        (s.heap m).InterfaceTable) ∧
      (ObCreateInterface s M obj N).2.heap = s.heap := by
  have hex : ObInterfaceExists s N = true := (exists_true_iff s N).mpr h
  simp [ObCreateInterface, hex]

/-- Witness of C1: module `2` publishing "net" while module `1` holds "Net". -/
theorem publish_existing_name_rejected_witness :
    (ObCreateInterface sampleState 2 11 nameNetLower).1 = AURIE_OBJECT_ALREADY_EXISTS ∧
      (ObCreateInterface sampleState 2 11 nameNetLower).2.trace = sampleState.trace ∧
      (∀ m, ((ObCreateInterface sampleState 2 11 nameNetLower).2.heap m).InterfaceTable =
        (sampleState.heap m).InterfaceTable) ∧
      (ObCreateInterface sampleState 2 11 nameNetLower).2.heap = sampleState.heap :=
  publish_existing_name_rejected sampleState 2 11 nameNetLower
    ⟨1, by decide, { Interface := 10, InterfaceName := nameNet, OwnerModule := 1 },
      by decide, by decide⟩

/-- C2: when `N` does not exist and the object's `Create()` reports a non-success status,
`ObCreateInterface` returns exactly that status, `Create()` is the one call made, every
module (hence every interface table) is as it was, and `N` still does not exist. -/
theorem publish_create_failure_propagated (s : State) (M : ModulePtr) (obj : InterfacePtr)
    (N : CStr) (hN : ObInterfaceExists s N = false)
    (hC : AurieSuccess (s.CreateStatus obj s.trace) = false) :
    (ObCreateInterface s M obj N).1 = s.CreateStatus obj s.trace ∧
      (ObCreateInterface s M obj N).2.trace = s.trace ++ [Event.Create obj] ∧
      (∀ m, ((ObCreateInterface s M obj N).2.heap m).InterfaceTable =
        (s.heap m).InterfaceTable) ∧
      (ObCreateInterface s M obj N).2.heap = s.heap ∧
      ObInterfaceExists (ObCreateInterface s M obj N).2 N = false := by
  have hst : (ObCreateInterface s M obj N) =
      (s.CreateStatus obj s.trace, { s with trace := s.trace ++ [Event.Create obj] }) := by
    simp [ObCreateInterface, hN, hC]
  rw [hst]
  refine ⟨rfl, rfl, fun _ => rfl, rfl, ?_⟩
  rw [exists_false_iff] at hN ⊢
  exact hN

/-- Witness of C2: object `66`, whose `Create()` reports `AURIE_OTHER 7`, published as
"Gfx". -/
theorem publish_create_failure_propagated_witness :
    (ObCreateInterface sampleState 2 66 nameGfx).1 = AURIE_OTHER 7 ∧
      (ObCreateInterface sampleState 2 66 nameGfx).2.trace = [Event.Create 66] ∧
      ObInterfaceExists (ObCreateInterface sampleState 2 66 nameGfx).2 nameGfx = false := by
  have h := publish_create_failure_propagated sampleState 2 66 nameGfx (by decide) (by decide)
  exact ⟨h.1, h.2.1, h.2.2.2.2⟩

/-- C3: when the loaded module `M` publishes `obj` under a name `N` that does not exist
and `Create()` succeeds, `ObCreateInterface` returns success and afterwards, for every
name `N'` equal to `N` ignoring ASCII case, `ObGetInterface` succeeds with exactly `obj`
and `ObInterfaceExists` is true. -/
theorem publish_then_get (s : State) (M : ModulePtr) (obj : InterfacePtr) (N : CStr)
    (hM : M ∈ s.g_LdrModuleList) (hN : ObInterfaceExists s N = false)
    (hC : AurieSuccess (s.CreateStatus obj s.trace) = true) :
    (ObCreateInterface s M obj N).1 = AURIE_SUCCESS ∧
      ∀ N', EqIgnoreCase N' N →
        ObGetInterface (ObCreateInterface s M obj N).2 N' = .ok obj ∧
        ObInterfaceExists (ObCreateInterface s M obj N).2 N' = true := by
  rw [publish_success_eq s M obj N hN hC]
  refine ⟨rfl, fun N' hN' => ?_⟩
  rw [exists_false_iff] at hN
  obtain ⟨l₁, l₂, hl⟩ := List.append_of_mem hM
  have hnd := s.nodup
  rw [hl, List.nodup_middle, List.nodup_cons] at hnd
  have hM₁ : M ∉ l₁ := fun hmem => hnd.1 (List.mem_append_left _ hmem)
  have hlook : ObpLookupInterfaceOwner
      { s with
        trace := s.trace ++ [Event.Create obj]
        heap := writeModule s.heap M
          { s.heap M with
            InterfaceTable := (s.heap M).InterfaceTable ++
              [{ Interface := obj, InterfaceName := N, OwnerModule := M }] } } N' true =
      .ok (M, { Interface := obj, InterfaceName := N, OwnerModule := M }) := by
    unfold ObpLookupInterfaceOwner
    rw [lookupLoop_ok_iff]
    refine ⟨l₁, l₂, (s.heap M).InterfaceTable, [], hl, ?_, ?_, ?_, ?_⟩
    · intro m' hm' x hx hmatch
      have hne : m' ≠ M := fun h => hM₁ (h ▸ hm')
      simp only [writeModule_other _ _ _ _ hne] at hx
      exact hN m' (by rw [hl]; exact List.mem_append_left _ hm') x hx
        (EqIgnoreCase.trans hmatch hN')
    · simp only [writeModule_same]
    · intro x hx hmatch
      exact hN M hM x hx (EqIgnoreCase.trans hmatch hN')
    · exact EqIgnoreCase.symm hN'
  exact ⟨getInterface_of_lookup _ _ _ _ hlook, exists_of_lookup _ _ _ _ hlook⟩

/-- Witness of C3: module `2` publishes object `11` as "Gfx", which is then found under
"gfx". -/
theorem publish_then_get_witness :
    ObGetInterface (ObCreateInterface sampleState 2 11 nameGfx).2 nameGfxLower = .ok 11 ∧
      ObInterfaceExists (ObCreateInterface sampleState 2 11 nameGfx).2 nameGfxLower = true :=
  (publish_then_get sampleState 2 11 nameGfx (by decide) (by decide) (by decide)).2
    nameGfxLower (by decide)

/-! ## Destruction -/

/-- C4: when the lookup of `N` finds an entry `e` in the table of `M1` and `M2` is another
module, `ObDestroyInterface M2 N` returns `AURIE_ACCESS_DENIED`, makes no call (in particular
no `Destroy()`), leaves every module and so every table as it was, and `ObGetInterface N`
succeeds afterwards with the same interface object as before. -/
theorem destroy_by_non_owner_denied (s : State) (N : CStr) (M1 M2 : ModulePtr)
    (e : AurieInterfaceTableEntry) (hfind : ObpLookupInterfaceOwner s N true = .ok (M1, e))
    (hne : M2 ≠ M1) :
    (ObDestroyInterface s M2 N).1 = AURIE_ACCESS_DENIED ∧
      (ObDestroyInterface s M2 N).2.trace = s.trace ∧
      (∀ m, ((ObDestroyInterface s M2 N).2.heap m).InterfaceTable =
        (s.heap m).InterfaceTable) ∧
      (ObDestroyInterface s M2 N).2.heap = s.heap ∧
      ObGetInterface s N = .ok e.Interface ∧
      ObGetInterface (ObDestroyInterface s M2 N).2 N = .ok e.Interface := by
  have hst : ObDestroyInterface s M2 N = (AURIE_ACCESS_DENIED, s) := by
    simp [ObDestroyInterface, hfind, Ne.symm hne]
  rw [hst]
  exact ⟨rfl, rfl, fun _ => rfl, rfl, getInterface_of_lookup s N M1 e hfind,
    getInterface_of_lookup s N M1 e hfind⟩

/-- Witness of C4: module `2` asks for the destruction of "net", which module `1` owns. -/
theorem destroy_by_non_owner_denied_witness :
    (ObDestroyInterface sampleState 2 nameNetLower).1 = AURIE_ACCESS_DENIED ∧
      (ObDestroyInterface sampleState 2 nameNetLower).2.trace = [] ∧
      ObGetInterface (ObDestroyInterface sampleState 2 nameNetLower).2 nameNetLower = .ok 10 := by
  have h := destroy_by_non_owner_denied sampleState nameNetLower 1 2
    { Interface := 10, InterfaceName := nameNet, OwnerModule := 1 } (by rfl) (by decide)
  exact ⟨h.1, h.2.1, h.2.2.2.2.2⟩

/-- C5: in a state with registry-wide name uniqueness in which the table of the loaded
module `M1` holds an entry whose name equals `N` ignoring case, the lookup of `N` finds an
entry of `M1`, `ObDestroyInterface M1 N` returns success, afterwards `ObInterfaceExists N`
is false, and a second `ObDestroyInterface M1 N` returns `AURIE_OBJECT_NOT_FOUND`. -/
theorem destroy_by_owner_then_gone (s : State) (N : CStr) (M1 : ModulePtr)
    (e : AurieInterfaceTableEntry) (hU : UniqueNames s) (hM1 : M1 ∈ s.g_LdrModuleList)
    (he : e ∈ (s.heap M1).InterfaceTable) (hmatch : EqIgnoreCase e.InterfaceName N) :
    (∃ e', ObpLookupInterfaceOwner s N true = .ok (M1, e')) ∧
      (ObDestroyInterface s M1 N).1 = AURIE_SUCCESS ∧
      ObInterfaceExists (ObDestroyInterface s M1 N).2 N = false ∧
      (ObDestroyInterface (ObDestroyInterface s M1 N).2 M1 N).1 = AURIE_OBJECT_NOT_FOUND := by
  obtain ⟨l₁, M, l₂, t₁, e', t₂, hl, -, ht, -, hme, hfind⟩ :=
    lookup_ok_of_match s N true ⟨M1, hM1, e, he, by simpa [NameMatch] using hmatch⟩
  have hM : M ∈ s.g_LdrModuleList := by rw [hl]; simp
  have hme' : EqIgnoreCase e'.InterfaceName N := by simpa [NameMatch] using hme
  have hMM : M = M1 := by
    by_contra hne
    exact unique_other_entry s hU M e' t₁ t₂ hM ht M1 hM1 e he (Or.inl (Ne.symm hne))
      (EqIgnoreCase.trans hmatch (EqIgnoreCase.symm hme'))
  subst hMM
  rw [destroy_by_owner_eq s N M e' hfind]
  have hgone : ObInterfaceExists (afterDestroy s M e'.Interface) N = false := by
    rw [exists_false_iff]
    intro m hm x hx hxN
    have hm' : m ∈ s.g_LdrModuleList := hm
    obtain ⟨hxold, hxne⟩ := mem_table_afterDestroy s M e'.Interface m x hx
    refine unique_other_entry s hU M e' t₁ t₂ hM ht m hm' x hxold ?_
      (EqIgnoreCase.trans hxN (EqIgnoreCase.symm hme'))
    by_cases hmM : m = M
    · right
      subst hmM
      rw [ht] at hxold
      rcases List.mem_append.mp hxold with h | h
      · exact List.mem_append_left _ h
      · rcases List.mem_cons.mp h with h | h
        · exact absurd (congrArg AurieInterfaceTableEntry.Interface h) (hxne rfl)
        · exact List.mem_append_right _ h
    · exact Or.inl hmM
  refine ⟨⟨e', hfind⟩, rfl, hgone, ?_⟩
  simp [ObDestroyInterface, lookup_error_of_not_exists _ _ hgone]

/-- Witness of C5: module `1` destroys its "Net" under the name "net". -/
theorem destroy_by_owner_then_gone_witness :
    (ObDestroyInterface sampleState 1 nameNetLower).1 = AURIE_SUCCESS ∧
      ObInterfaceExists (ObDestroyInterface sampleState 1 nameNetLower).2 nameNetLower = false ∧
      (ObDestroyInterface (ObDestroyInterface sampleState 1 nameNetLower).2 1 nameNetLower).1 =
        AURIE_OBJECT_NOT_FOUND :=
  (destroy_by_owner_then_gone sampleState nameNetLower 1
    { Interface := 10, InterfaceName := nameNet, OwnerModule := 1 } (by decide) (by decide)
    (by decide) (by decide)).2

/-! ## Name uniqueness -/

theorem uniqueNames_congr (s s' : State) (hl : s'.g_LdrModuleList = s.g_LdrModuleList)
    (ht : ∀ m ∈ s.g_LdrModuleList, (s'.heap m).InterfaceTable = (s.heap m).InterfaceTable)
    (hU : UniqueNames s) : UniqueNames s' := by
  unfold UniqueNames allEntries at hU ⊢
  rw [hl, List.flatMap_congr ht]
  exact hU

theorem uniqueNames_afterDestroy (s : State) (M : ModulePtr) (obj : InterfacePtr)
    (hU : UniqueNames s) : UniqueNames (afterDestroy s M obj) := by
  rw [uniqueNames_iff] at hU ⊢
  obtain ⟨htab, hmod⟩ := hU
  constructor
  · intro m hm
    have hm' : m ∈ s.g_LdrModuleList := hm
    by_cases hmM : m = M
    · subst hmM
      simp only [afterDestroy, writeModule_same]
      exact (htab m hm').filter _
    · simp only [afterDestroy, writeModule_other _ _ _ _ hmM]
      exact htab m hm'
  · have hmod' : s.g_LdrModuleList.Pairwise (fun m₁ m₂ =>
        ∀ x ∈ ((afterDestroy s M obj).heap m₁).InterfaceTable,
          ∀ y ∈ ((afterDestroy s M obj).heap m₂).InterfaceTable,
            ¬ EqIgnoreCase x.InterfaceName y.InterfaceName) := by
      refine hmod.imp ?_
      intro a b hab x hx y hy
      exact hab x (mem_table_afterDestroy s M obj a x hx).1 y
        (mem_table_afterDestroy s M obj b y hy).1
    exact hmod'

theorem uniqueNames_publish (s : State) (M : ModulePtr) (obj : InterfacePtr) (N : CStr)
    (hU : UniqueNames s) : UniqueNames (ObCreateInterface s M obj N).2 := by
  cases hN : ObInterfaceExists s N with
  | true =>
    have : ObCreateInterface s M obj N = (AURIE_OBJECT_ALREADY_EXISTS, s) := by
      simp [ObCreateInterface, hN]
    rw [this]; exact hU
  | false =>
    cases hC : AurieSuccess (s.CreateStatus obj s.trace) with
    | false =>
      have : ObCreateInterface s M obj N =
          (s.CreateStatus obj s.trace, { s with trace := s.trace ++ [Event.Create obj] }) := by
        simp [ObCreateInterface, hN, hC]
      rw [this]
      exact uniqueNames_congr s _ rfl (fun _ _ => rfl) hU
    | true =>
      rw [publish_success_eq s M obj N hN hC]
      by_cases hM : M ∈ s.g_LdrModuleList
      · rw [exists_false_iff] at hN
        have hnd : s.g_LdrModuleList.Pairwise (fun a b => a ≠ b) := s.nodup
        rw [uniqueNames_iff] at hU ⊢
        obtain ⟨htab, hmod⟩ := hU
        constructor
        · intro m hm
          have hm' : m ∈ s.g_LdrModuleList := hm
          by_cases hmM : m = M
          · subst hmM
            simp only [writeModule_same]
            rw [List.pairwise_append]
            refine ⟨htab m hm', List.pairwise_singleton _ _, ?_⟩
            intro a ha b hb
            rw [List.mem_singleton] at hb
            subst hb
            exact hN m hm' a ha
          · simp only [writeModule_other _ _ _ _ hmM]
            exact htab m hm'
        · refine (hmod.and hnd).imp_of_mem ?_
          rintro a b ha hb ⟨hab, hne⟩ x hx y hy
          by_cases haM : a = M
          · subst haM
            have hbM : b ≠ a := Ne.symm hne
            simp only [writeModule_same] at hx
            simp only [writeModule_other _ _ _ _ hbM] at hy
            rcases List.mem_append.mp hx with h | h
            · exact hab x h y hy
            · rw [List.mem_singleton] at h
              subst h
              exact fun hxy => hN b hb y hy (EqIgnoreCase.symm hxy)
          · simp only [writeModule_other _ _ _ _ haM] at hx
            by_cases hbM : b = M
            · subst hbM
              simp only [writeModule_same] at hy
              rcases List.mem_append.mp hy with h | h
              · exact hab x hx y h
              · rw [List.mem_singleton] at h
                subst h
                exact hN a ha x hx
            · simp only [writeModule_other _ _ _ _ hbM] at hy
              exact hab x hx y hy
      · refine uniqueNames_congr s _ rfl ?_ hU
        intro m hm
        have hmM : m ≠ M := fun h => hM (h ▸ hm)
        simp only [writeModule_other _ _ _ _ hmM]

theorem uniqueNames_run (s : State) (op : Op) (hU : UniqueNames s) : UniqueNames (op.run s) := by
  cases op with
  | Publish M obj N => exact uniqueNames_publish s M obj N hU
  | Exists N => exact hU
  | Get N => exact hU
  | DestroyByOwner M N =>
    simp only [Op.run]
    cases hf : ObpLookupInterfaceOwner s N true with
    | error st =>
      have : ObDestroyInterface s M N = (st, s) := by simp [ObDestroyInterface, hf]
      rw [this]; exact hU
    | ok r =>
      obtain ⟨owner, e⟩ := r
      by_cases ho : owner = M
      · subst ho
        rw [destroy_by_owner_eq s N owner e hf]
        exact uniqueNames_afterDestroy s owner e.Interface hU
      · have : ObDestroyInterface s M N = (AURIE_ACCESS_DENIED, s) := by
          simp [ObDestroyInterface, hf, ho]
        rw [this]; exact hU
  | DestroyByName N =>
    simp only [Op.run]
    cases hf : ObpLookupInterfaceOwner s N true with
    | error st =>
      have : ObpDestroyInterfaceByName s N = (st, s) := by
        simp [ObpDestroyInterfaceByName, hf]
      rw [this]; exact hU
    | ok r =>
      obtain ⟨owner, e⟩ := r
      rw [destroy_by_name_eq s N owner e hf]
      exact uniqueNames_afterDestroy s owner e.Interface hU
  | RegisterCallback M cb =>
    refine uniqueNames_congr s _ rfl ?_ hU
    intro m _
    simp only [Op.run, ObpSetModuleOperationCallback, writeModule]
    split_ifs with h
    · subst h; rfl
    · rfl
  | Dispatch A R F => exact uniqueNames_congr s _ rfl (fun _ _ => rfl) hU

theorem uniqueNames_of_tablesEmpty (s : State) (h : TablesEmpty s) : UniqueNames s := by
  rw [uniqueNames_iff]
  constructor
  · intro m hm
    rw [h m hm]
    exact List.Pairwise.nil
  · refine List.pairwise_of_forall_mem_list ?_
    intro a ha b _ x hx
    rw [h a ha] at hx
    exact absurd hx (List.not_mem_nil _)

/-- C6: registry-wide name uniqueness is preserved by every operation of the call surface
(a publication onto any module, successful or failed, a destruction by owner, a destruction
by name, a callback registration, and also a dispatch and the two queries), hence it holds
in every state reachable from a state in which every loaded module's table is empty. -/
theorem uniqueNames_invariant :
    (∀ (s : State) (op : Op), UniqueNames s → UniqueNames (op.run s)) ∧
      (∀ s₀ s : State, TablesEmpty s₀ → Reachable s₀ s → UniqueNames s) := by
  refine ⟨uniqueNames_run, ?_⟩
  intro s₀ s h₀ hr
  induction hr with
  | start => exact uniqueNames_of_tablesEmpty s₀ h₀
  | step s op _ ih => exact uniqueNames_run s op ih

/-- Witness of C6: uniqueness after module `2` publishes "Gfx" next to the "Net" of module
`1`, and after two publications of "Net" and "net" onto empty tables. -/
theorem uniqueNames_invariant_witness :
    UniqueNames ((Op.Publish 2 11 nameGfx).run sampleState) ∧
      UniqueNames ((Op.Publish 2 11 nameNetLower).run ((Op.Publish 1 10 nameNet).run emptyState)) :=
  ⟨uniqueNames_invariant.1 sampleState (Op.Publish 2 11 nameGfx) (by decide),
    uniqueNames_invariant.2 emptyState _ (fun _ _ => rfl)
      (Reachable.step _ _ (Reachable.step _ _ Reachable.start))⟩

/-! ## Lookup -/

/-- C7: for every state, name and comparison mode, `ObpLookupInterfaceOwner` fails only
with `AURIE_OBJECT_NOT_FOUND`, and does so exactly when no loaded module's table holds an
entry whose name matches under that mode; when some table holds a match, it returns the
first module, in the order of `g_LdrModuleList`, whose table has a match, together with
the first matching entry of that table in insertion order. -/
theorem lookupOwner_first_match (s : State) (N : CStr) (ci : Bool) :
    (∀ st, ObpLookupInterfaceOwner s N ci = .error st → st = AURIE_OBJECT_NOT_FOUND) ∧
      (ObpLookupInterfaceOwner s N ci = .error AURIE_OBJECT_NOT_FOUND ↔
        ∀ m ∈ s.g_LdrModuleList, ∀ e ∈ (s.heap m).InterfaceTable,
          ¬ NameMatch ci e.InterfaceName N) ∧
      ((∃ m ∈ s.g_LdrModuleList, ∃ e ∈ (s.heap m).InterfaceTable,
          NameMatch ci e.InterfaceName N) →
        ∃ l₁ M l₂ t₁ e t₂,
          s.g_LdrModuleList = l₁ ++ M :: l₂ ∧
          (∀ m ∈ l₁, ∀ x ∈ (s.heap m).InterfaceTable, ¬ NameMatch ci x.InterfaceName N) ∧
          (s.heap M).InterfaceTable = t₁ ++ e :: t₂ ∧
          (∀ x ∈ t₁, ¬ NameMatch ci x.InterfaceName N) ∧
          NameMatch ci e.InterfaceName N ∧
          ObpLookupInterfaceOwner s N ci = .ok (M, e)) := by
  refine ⟨fun st h => ((lookupLoop_error_iff _ _ _ _ _).mp h).1, ?_, lookup_ok_of_match s N ci⟩
  unfold ObpLookupInterfaceOwner
  rw [lookupLoop_error_iff]
  exact ⟨fun h => h.2, fun h => ⟨rfl, h⟩⟩

/-- Witness of C7: the exact lookup of "net" fails although module `1` holds "Net", and
the case-insensitive lookup of "net" finds that entry. -/
theorem lookupOwner_first_match_witness :
    (∀ m ∈ sampleState.g_LdrModuleList, ∀ e ∈ (sampleState.heap m).InterfaceTable,
        ¬ NameMatch false e.InterfaceName nameNetLower) ∧
      ∃ l₁ M l₂ t₁ e t₂,
        sampleState.g_LdrModuleList = l₁ ++ M :: l₂ ∧
        (∀ m ∈ l₁, ∀ x ∈ (sampleState.heap m).InterfaceTable,
          ¬ NameMatch true x.InterfaceName nameNetLower) ∧
        (sampleState.heap M).InterfaceTable = t₁ ++ e :: t₂ ∧
        (∀ x ∈ t₁, ¬ NameMatch true x.InterfaceName nameNetLower) ∧
        NameMatch true e.InterfaceName nameNetLower ∧
        ObpLookupInterfaceOwner sampleState nameNetLower true = .ok (M, e) :=
  ⟨(lookupOwner_first_match sampleState nameNetLower false).2.1.mp (by rfl),
    (lookupOwner_first_match sampleState nameNetLower true).2.2
      ⟨1, by decide, { Interface := 10, InterfaceName := nameNet, OwnerModule := 1 },
        by decide, by decide⟩⟩

/-- C8: for every state and name, `ObInterfaceExists` is true exactly when `ObGetInterface`
succeeds, exactly when the case-insensitive `ObpLookupInterfaceOwner` succeeds; on success
`ObGetInterface` yields the interface of the entry that the lookup returns; and both
queries leave the whole state, so every table and every registered callback, as it was. -/
theorem exists_get_lookup_agree (s : State) (N : CStr) :
    (ObInterfaceExists s N = true ↔ ∃ obj, ObGetInterface s N = .ok obj) ∧
      ((∃ obj, ObGetInterface s N = .ok obj) ↔
        ∃ r, ObpLookupInterfaceOwner s N true = .ok r) ∧
      (∀ M e, ObpLookupInterfaceOwner s N true = .ok (M, e) →
        ObGetInterface s N = .ok e.Interface) ∧
      (Op.Exists N).run s = s ∧ (Op.Get N).run s = s := by
  refine ⟨?_, ?_, fun M e h => getInterface_of_lookup s N M e h, rfl, rfl⟩
  · cases h : ObpLookupInterfaceOwner s N true with
    | error st =>
      have hst : st = AURIE_OBJECT_NOT_FOUND := ((lookupLoop_error_iff _ _ _ _ _).mp h).1
      subst hst
      simp [ObInterfaceExists, ObGetInterface, h, lookupStatus, AurieSuccess]
    | ok r =>
      simp [ObInterfaceExists, ObGetInterface, h, lookupStatus, AurieSuccess]
  · cases h : ObpLookupInterfaceOwner s N true with
    | error st => simp [ObGetInterface, h]
    | ok r => simp [ObGetInterface, h]

/-- Witness of C8: "net" in the sample state. -/
theorem exists_get_lookup_agree_witness :
    ObGetInterface sampleState nameNetLower = .ok 10 :=
  (exists_get_lookup_agree sampleState nameNetLower).2.2.1 1
    { Interface := 10, InterfaceName := nameNet, OwnerModule := 1 } (by rfl)

/-- C9: `ObpDestroyInterfaceByName` returns `AURIE_OBJECT_NOT_FOUND` and leaves the state
as it was when no loaded module holds an entry whose name equals `N` ignoring case;
otherwise, whoever owns the entry, the lookup finds a module `M` and an entry `e`, the one
call made is `Destroy()` on the interface object of `e`, the table of `M` loses every entry
with that interface object (so `e` is no longer in it), nothing else changes, and the
status is success. -/
theorem destroy_by_name_unconditional (s : State) (N : CStr) :
    ((∀ m ∈ s.g_LdrModuleList, ∀ x ∈ (s.heap m).InterfaceTable,
        ¬ EqIgnoreCase x.InterfaceName N) →
      ObpDestroyInterfaceByName s N = (AURIE_OBJECT_NOT_FOUND, s)) ∧
    ((∃ m ∈ s.g_LdrModuleList, ∃ x ∈ (s.heap m).InterfaceTable,
        EqIgnoreCase x.InterfaceName N) →
      ∃ M e, ObpLookupInterfaceOwner s N true = .ok (M, e) ∧
        M ∈ s.g_LdrModuleList ∧ e ∈ (s.heap M).InterfaceTable ∧
        EqIgnoreCase e.InterfaceName N ∧
        (ObpDestroyInterfaceByName s N).1 = AURIE_SUCCESS ∧
        (ObpDestroyInterfaceByName s N).2.trace = s.trace ++ [Event.Destroy e.Interface] ∧
        ((ObpDestroyInterfaceByName s N).2.heap M).InterfaceTable =
          (s.heap M).InterfaceTable.filter (fun x => !(x.Interface == e.Interface)) ∧
        e ∉ ((ObpDestroyInterfaceByName s N).2.heap M).InterfaceTable ∧
        ((ObpDestroyInterfaceByName s N).2.heap M).ModuleOperationCallback =
          (s.heap M).ModuleOperationCallback ∧
        (∀ m, m ≠ M → (ObpDestroyInterfaceByName s N).2.heap m = s.heap m) ∧
        (ObpDestroyInterfaceByName s N).2.g_LdrModuleList = s.g_LdrModuleList) := by
  constructor
  · intro h
    have hex : ObInterfaceExists s N = false := (exists_false_iff s N).mpr h
    simp [ObpDestroyInterfaceByName, lookup_error_of_not_exists s N hex]
  · intro h
    have hex : ObInterfaceExists s N = true := (exists_true_iff s N).mpr h
    cases hf : ObpLookupInterfaceOwner s N true with
    | error st =>
      have hst : st = AURIE_OBJECT_NOT_FOUND := ((lookupLoop_error_iff _ _ _ _ _).mp hf).1
      subst hst
      simp [ObInterfaceExists, hf, lookupStatus, AurieSuccess] at hex
    | ok r =>
      obtain ⟨M, e⟩ := r
      obtain ⟨l₁, l₂, t₁, t₂, hl, -, ht, -, hme⟩ := (lookupLoop_ok_iff _ _ _ _ _ _).mp hf
      refine ⟨M, e, rfl, by rw [hl]; simp, by rw [ht]; simp, by simpa [NameMatch] using hme,
        ?_⟩
      rw [destroy_by_name_eq s N M e hf]
      refine ⟨rfl, rfl, ?_, ?_, ?_, ?_, rfl⟩
      · simp only [afterDestroy, writeModule_same]
      · simp only [afterDestroy, writeModule_same, List.mem_filter, not_and]
        intro _
        simp
      · simp only [afterDestroy, writeModule_same]
      · intro m hm
        simp only [afterDestroy, writeModule_other _ _ _ _ hm]

/-- Witness of C9: the name "Gfx" is absent from the sample state, where the destruction
of "net" removes the "Net" of module `1`. -/
theorem destroy_by_name_unconditional_witness :
    ObpDestroyInterfaceByName sampleState nameGfx = (AURIE_OBJECT_NOT_FOUND, sampleState) ∧
      ∃ M e, ObpLookupInterfaceOwner sampleState nameNetLower true = .ok (M, e) ∧
        M ∈ sampleState.g_LdrModuleList ∧ e ∈ (sampleState.heap M).InterfaceTable ∧
        EqIgnoreCase e.InterfaceName nameNetLower ∧
        (ObpDestroyInterfaceByName sampleState nameNetLower).1 = AURIE_SUCCESS ∧
        (ObpDestroyInterfaceByName sampleState nameNetLower).2.trace =
          sampleState.trace ++ [Event.Destroy e.Interface] ∧
        ((ObpDestroyInterfaceByName sampleState nameNetLower).2.heap M).InterfaceTable =
          (sampleState.heap M).InterfaceTable.filter
            (fun x => !(x.Interface == e.Interface)) ∧
        e ∉ ((ObpDestroyInterfaceByName sampleState nameNetLower).2.heap M).InterfaceTable ∧
        ((ObpDestroyInterfaceByName sampleState nameNetLower).2.heap M).ModuleOperationCallback =
          (sampleState.heap M).ModuleOperationCallback ∧
        (∀ m, m ≠ M →
          (ObpDestroyInterfaceByName sampleState nameNetLower).2.heap m = sampleState.heap m) ∧
        (ObpDestroyInterfaceByName sampleState nameNetLower).2.g_LdrModuleList =
          sampleState.g_LdrModuleList :=
  ⟨(destroy_by_name_unconditional sampleState nameGfx).1 (by decide),
    (destroy_by_name_unconditional sampleState nameNetLower).2
      ⟨1, by decide, { Interface := 10, InterfaceName := nameNet, OwnerModule := 1 },
        by decide, by decide⟩⟩

/-! ## Callback dispatch -/

theorem dispatchLoop_eq (heap : ModulePtr → AurieModule) (A : ModulePtr)
    (ty : AurieModuleOperationType) (F : Bool) (l : List ModulePtr) (tr : List Event) :
    dispatchLoop heap A ty F l tr =
      tr ++ (l.filter (fun m => decide ((heap m).ModuleOperationCallback ≠ 0))).map
        (fun m => Event.Callback m (heap m).ModuleOperationCallback A ty F) := by
  induction l generalizing tr with
  | nil => simp [dispatchLoop]
  | cons m rest ih =>
    by_cases h : (heap m).ModuleOperationCallback = 0
    · simp [dispatchLoop, h, ih]
    · simp [dispatchLoop, h, ih]

/-- C10: one call of `ObpDispatchModuleOperationCallbacks` appends to the trace exactly the
calls of the callbacks of the loaded modules that have one, in the order of
`g_LdrModuleList`, each call receiving the affected module, the one classified operation
type and the caller's `IsFutureCall`; a loaded module with a callback is called exactly
once, any other module not at all; modules and module list are left as they were. -/
theorem dispatch_calls_each_callback_once (s : State) (A : ModulePtr) (R : Nat) (F : Bool) :
    (ObpDispatchModuleOperationCallbacks s A R F).trace =
        s.trace ++ (s.g_LdrModuleList.filter (hasCallback s)).map
          (fun m => Event.Callback m (s.heap m).ModuleOperationCallback A
            (operationType (s.heap A) R) F) ∧
      (∀ m, m ∈ s.g_LdrModuleList → hasCallback s m = true →
        (((ObpDispatchModuleOperationCallbacks s A R F).trace.drop s.trace.length).countP
          (Event.isCallbackOf m)) = 1) ∧
      (∀ m, ¬ (m ∈ s.g_LdrModuleList ∧ hasCallback s m = true) →
        (((ObpDispatchModuleOperationCallbacks s A R F).trace.drop s.trace.length).countP
          (Event.isCallbackOf m)) = 0) ∧
      (ObpDispatchModuleOperationCallbacks s A R F).heap = s.heap ∧
      (ObpDispatchModuleOperationCallbacks s A R F).g_LdrModuleList = s.g_LdrModuleList := by
  have htr : (ObpDispatchModuleOperationCallbacks s A R F).trace =
      s.trace ++ (s.g_LdrModuleList.filter (hasCallback s)).map
        (fun m => Event.Callback m (s.heap m).ModuleOperationCallback A
          (operationType (s.heap A) R) F) := by
    simp only [ObpDispatchModuleOperationCallbacks, dispatchLoop_eq]
    rfl
  have hcount : ∀ m,
      (((ObpDispatchModuleOperationCallbacks s A R F).trace.drop s.trace.length).countP
        (Event.isCallbackOf m)) = (s.g_LdrModuleList.filter (hasCallback s)).count m := by
    intro m
    rw [htr, List.drop_left, List.countP_map]
    rfl
  have hnd : (s.g_LdrModuleList.filter (hasCallback s)).Nodup := s.nodup.filter _
  refine ⟨htr, ?_, ?_, rfl, rfl⟩
  · intro m hm hcb
    rw [hcount]
    exact List.count_eq_one_of_mem hnd (List.mem_filter.mpr ⟨hm, hcb⟩)
  · intro m hm
    rw [hcount, List.count_eq_zero]
    intro hmem
    exact hm (List.mem_filter.mp hmem)

/-- Witness of C10: in the sample state only module `1` has a callback; it is called once
and module `2` is skipped. -/
theorem dispatch_calls_each_callback_once_witness :
    (((ObpDispatchModuleOperationCallbacks sampleState 2 202 true).trace.drop
        sampleState.trace.length).countP (Event.isCallbackOf 1)) = 1 ∧
      (((ObpDispatchModuleOperationCallbacks sampleState 2 202 true).trace.drop
        sampleState.trace.length).countP (Event.isCallbackOf 2)) = 0 ∧
      (ObpDispatchModuleOperationCallbacks sampleState 2 202 true).trace =
        [Event.Callback 1 100 2 AURIE_OPERATION_INITIALIZE true] :=
  ⟨(dispatch_calls_each_callback_once sampleState 2 202 true).2.1 1 (by decide) (by decide),
    (dispatch_calls_each_callback_once sampleState 2 202 true).2.2.1 2 (by decide),
    (dispatch_calls_each_callback_once sampleState 2 202 true).1⟩

theorem dispatch_trace_eq (s : State) (A : ModulePtr) (R : Nat) (F : Bool) :
    (ObpDispatchModuleOperationCallbacks s A R F).trace =
      s.trace ++ (s.g_LdrModuleList.filter (hasCallback s)).map
        (fun m => Event.Callback m (s.heap m).ModuleOperationCallback A
          (operationType (s.heap A) R) F) := by
  simp only [ObpDispatchModuleOperationCallbacks, dispatchLoop_eq]
  rfl

theorem operationType_unknown_iff (M : AurieModule) (R : Nat) :
    operationType M R = AURIE_OPERATION_UNKNOWN ↔
      R ≠ M.ModulePreinitialize ∧ R ≠ M.ModuleInitialize ∧ R ≠ M.ModuleUnload := by
  unfold operationType
  split_ifs with h₁ h₂ h₃ <;> simp only [reduceCtorEq, false_iff, true_iff, ne_eq] <;> tauto

theorem operationType_preinitialize_iff (M : AurieModule) (R : Nat) :
    operationType M R = AURIE_OPERATION_PREINITIALIZE ↔ R = M.ModulePreinitialize := by
  unfold operationType
  split_ifs with h₁ h₂ h₃ <;> simp only [reduceCtorEq, false_iff, true_iff, ne_eq] <;> tauto

theorem operationType_initialize_iff (M : AurieModule) (R : Nat) :
    operationType M R = AURIE_OPERATION_INITIALIZE ↔
      R ≠ M.ModulePreinitialize ∧ R = M.ModuleInitialize := by
  unfold operationType
  split_ifs with h₁ h₂ h₃ <;> simp only [reduceCtorEq, false_iff, true_iff, ne_eq] <;> tauto

theorem operationType_unload_iff (M : AurieModule) (R : Nat) :
    operationType M R = AURIE_OPERATION_UNLOAD ↔
      R ≠ M.ModulePreinitialize ∧ R ≠ M.ModuleInitialize ∧ R = M.ModuleUnload := by
  unfold operationType
  split_ifs with h₁ h₂ h₃ <;> simp only [reduceCtorEq, false_iff, true_iff, ne_eq] <;> tauto

/-- C11: the operation type that `ObpDispatchModuleOperationCallbacks` hands to every
callback is the classification of `Routine` against the affected module's entry points;
it is `AURIE_OPERATION_UNKNOWN` exactly when `Routine` equals none of the three, in which
case the callbacks of the loaded modules are called all the same; and when the three entry
points are pairwise distinct it is the preinitialize, initialize or unload type exactly
when `Routine` equals the corresponding entry point. -/
theorem dispatch_classification (s : State) (A : ModulePtr) (R : Nat) (F : Bool) :
    (ObpDispatchModuleOperationCallbacks s A R F).trace =
        s.trace ++ (s.g_LdrModuleList.filter (hasCallback s)).map
          (fun m => Event.Callback m (s.heap m).ModuleOperationCallback A
            (operationType (s.heap A) R) F) ∧
      (operationType (s.heap A) R = AURIE_OPERATION_UNKNOWN ↔
        R ≠ AurieModule.ModulePreinitialize (s.heap A) ∧
          R ≠ (s.heap A).ModuleInitialize ∧
          R ≠ (s.heap A).ModuleUnload) ∧
      (R ≠ AurieModule.ModulePreinitialize (s.heap A) →
        R ≠ (s.heap A).ModuleInitialize →
        R ≠ (s.heap A).ModuleUnload →
        (ObpDispatchModuleOperationCallbacks s A R F).trace =
          s.trace ++ (s.g_LdrModuleList.filter (hasCallback s)).map
            (fun m => Event.Callback m (s.heap m).ModuleOperationCallback A
              AURIE_OPERATION_UNKNOWN F)) ∧
      ( AurieModule.ModulePreinitialize (s.heap A) ≠ (s.heap A).ModuleInitialize →
        AurieModule.ModulePreinitialize (s.heap A) ≠ (s.heap A).ModuleUnload →
        (s.heap A).ModuleInitialize ≠ (s.heap A).ModuleUnload →
        (operationType (s.heap A) R = AURIE_OPERATION_PREINITIALIZE ↔
          R = AurieModule.ModulePreinitialize (s.heap A)) ∧
        (operationType (s.heap A) R = AURIE_OPERATION_INITIALIZE ↔
          R = (s.heap A).ModuleInitialize) ∧
        (operationType (s.heap A) R = AURIE_OPERATION_UNLOAD ↔
          R = (s.heap A).ModuleUnload)) := by
  refine ⟨dispatch_trace_eq s A R F, operationType_unknown_iff _ _, ?_, ?_⟩
  · intro h₁ h₂ h₃
    rw [dispatch_trace_eq, (operationType_unknown_iff _ _).mpr ⟨h₁, h₂, h₃⟩]
  · intro hpi hpu hiu
    refine ⟨operationType_preinitialize_iff _ _, ?_, ?_⟩
    · rw [operationType_initialize_iff]
      exact ⟨fun h => h.2, fun h => ⟨fun hp => hpi (hp.symm.trans h), h⟩⟩
    · rw [operationType_unload_iff]
      exact ⟨fun h => h.2.2,
        fun h => ⟨fun hp => hpu (hp.symm.trans h), fun hi => hiu (hi.symm.trans h), h⟩⟩

/-- Witness of C11: in the sample state a dispatch for module `2` with the unrelated
routine `999` still calls the callback of module `1`, with the unknown type, and the
routine `203` is classified as the unload of module `2`. -/
theorem dispatch_classification_witness :
    (ObpDispatchModuleOperationCallbacks sampleState 2 999 false).trace =
        [Event.Callback 1 100 2 AURIE_OPERATION_UNKNOWN false] ∧
      (operationType (sampleState.heap 2) 203 = AURIE_OPERATION_UNLOAD ↔
        203 = (sampleState.heap 2).ModuleUnload) :=
  ⟨(dispatch_classification sampleState 2 999 false).2.2.1 (by decide) (by decide) (by decide),
    ((dispatch_classification sampleState 2 203 false).2.2.2 (by decide) (by decide)
      (by decide)).2.2⟩

/-- C20: the comparisons of `ObpDispatchModuleOperationCallbacks` are tried in the order
preinitialize, initialize, unload and the first equality decides; so when the unload (or
the initialize) entry point of the affected module equals its preinitialize entry point, a
dispatch with that entry point hands the preinitialize type to every callback, and when
the initialize and unload entry points coincide a dispatch with that entry point never
hands out the unload type (it is the initialize type unless the preinitialize entry point
coincides too). -/
theorem classification_precedence (s : State) (A : ModulePtr) (R : Nat) (F : Bool) :
    (R = AurieModule.ModulePreinitialize (s.heap A) →
        operationType (s.heap A) R = AURIE_OPERATION_PREINITIALIZE) ∧
      (R ≠ AurieModule.ModulePreinitialize (s.heap A) → R = (s.heap A).ModuleInitialize →
        operationType (s.heap A) R = AURIE_OPERATION_INITIALIZE) ∧
      (R ≠ AurieModule.ModulePreinitialize (s.heap A) →
        R ≠ (s.heap A).ModuleInitialize →
        R = (s.heap A).ModuleUnload →
        operationType (s.heap A) R = AURIE_OPERATION_UNLOAD) ∧
      ((s.heap A).ModuleUnload = AurieModule.ModulePreinitialize (s.heap A) →
        (ObpDispatchModuleOperationCallbacks s A (s.heap A).ModuleUnload F).trace =
          s.trace ++ (s.g_LdrModuleList.filter (hasCallback s)).map
            (fun m => Event.Callback m (s.heap m).ModuleOperationCallback A
              AURIE_OPERATION_PREINITIALIZE F)) ∧
      ((s.heap A).ModuleInitialize = AurieModule.ModulePreinitialize (s.heap A) →
        (ObpDispatchModuleOperationCallbacks s A (s.heap A).ModuleInitialize F).trace =
          s.trace ++ (s.g_LdrModuleList.filter (hasCallback s)).map
            (fun m => Event.Callback m (s.heap m).ModuleOperationCallback A
              AURIE_OPERATION_PREINITIALIZE F)) ∧
      ((s.heap A).ModuleInitialize = (s.heap A).ModuleUnload →
        operationType (s.heap A) (s.heap A).ModuleUnload ≠ AURIE_OPERATION_UNLOAD ∧
        ((s.heap A).ModuleInitialize ≠ AurieModule.ModulePreinitialize (s.heap A) →
          (ObpDispatchModuleOperationCallbacks s A (s.heap A).ModuleUnload F).trace =
            s.trace ++ (s.g_LdrModuleList.filter (hasCallback s)).map
              (fun m => Event.Callback m (s.heap m).ModuleOperationCallback A
                AURIE_OPERATION_INITIALIZE F))) := by
  refine ⟨fun h => (operationType_preinitialize_iff _ _).mpr h,
    fun h₁ h₂ => (operationType_initialize_iff _ _).mpr ⟨h₁, h₂⟩,
    fun h₁ h₂ h₃ => (operationType_unload_iff _ _).mpr ⟨h₁, h₂, h₃⟩, ?_, ?_, ?_⟩
  · intro h
    rw [dispatch_trace_eq, (operationType_preinitialize_iff _ _).mpr h]
  · intro h
    rw [dispatch_trace_eq, (operationType_preinitialize_iff _ _).mpr h]
  · intro h
    constructor
    · rw [Ne, operationType_unload_iff]
      rintro ⟨-, h₂, -⟩
      exact h₂ h.symm
    · intro hne
      rw [dispatch_trace_eq,
        (operationType_initialize_iff _ _).mpr ⟨fun hp => hne (h.trans hp), h.symm⟩]

/-- Witness of C20: module `1` of `entryState` has null preinitialize and unload entry
points, and a dispatch with the null routine reports a preinitialization; module `2` has
equal initialize and unload entry points, and a dispatch with them reports an
initialization. -/
theorem classification_precedence_witness :
    (ObpDispatchModuleOperationCallbacks entryState 1 0 true).trace =
        [Event.Callback 1 100 1 AURIE_OPERATION_PREINITIALIZE true] ∧
      (ObpDispatchModuleOperationCallbacks entryState 2 302 true).trace =
        [Event.Callback 1 100 2 AURIE_OPERATION_INITIALIZE true] :=
  ⟨(classification_precedence entryState 1 0 true).2.2.2.1 (by decide),
    ((classification_precedence entryState 2 302 true).2.2.2.2.2 (by decide)).2 (by decide)⟩

/-! ## Callback registration -/

theorem setCallback_heap_same (s : State) (M : ModulePtr) (c : Nat) :
    (ObpSetModuleOperationCallback s M c).heap M =
      { s.heap M with ModuleOperationCallback := c } := by
  simp [ObpSetModuleOperationCallback, writeModule_same]

theorem setCallback_heap_other (s : State) (M : ModulePtr) (c : Nat) (m : ModulePtr)
    (h : m ≠ M) : (ObpSetModuleOperationCallback s M c).heap m = s.heap m := by
  simp [ObpSetModuleOperationCallback, writeModule_other _ _ _ _ h]

theorem setCallback_table (s : State) (M : ModulePtr) (c : Nat) (m : ModulePtr) :
    ((ObpSetModuleOperationCallback s M c).heap m).InterfaceTable =
      (s.heap m).InterfaceTable := by
  by_cases h : m = M
  · subst h; rw [setCallback_heap_same]
  · rw [setCallback_heap_other s M c m h]

theorem setCallback_operationType (s : State) (M : ModulePtr) (c : Nat) (A : ModulePtr)
    (R : Nat) :
    operationType ((ObpSetModuleOperationCallback s M c).heap A) R =
      operationType (s.heap A) R := by
  by_cases h : A = M
  · subst h; rw [setCallback_heap_same]; rfl
  · rw [setCallback_heap_other s M c A h]

theorem isCallbackOf_dispatch_event (s : State) (A : ModulePtr) (R : Nat) (F : Bool)
    (M : ModulePtr) (ev : Event)
    (hev : ev ∈ (ObpDispatchModuleOperationCallbacks s A R F).trace.drop s.trace.length)
    (hM : Event.isCallbackOf M ev = true) :
    ev = Event.Callback M (s.heap M).ModuleOperationCallback A
      (operationType (s.heap A) R) F := by
  rw [dispatch_trace_eq, List.drop_left, List.mem_map] at hev
  obtain ⟨m, -, rfl⟩ := hev
  simp only [Event.isCallbackOf, beq_iff_eq] at hM
  subst hM
  rfl

theorem countP_dispatch_events (s : State) (A : ModulePtr) (R : Nat) (F : Bool)
    (M : ModulePtr) :
    ((ObpDispatchModuleOperationCallbacks s A R F).trace.drop s.trace.length).countP
      (Event.isCallbackOf M) = (s.g_LdrModuleList.filter (hasCallback s)).count M := by
  rw [dispatch_trace_eq, List.drop_left, List.countP_map]
  rfl

/-- C12: after `ObpSetModuleOperationCallback M c1` followed by
`ObpSetModuleOperationCallback M c2` the callback stored in `M` is `c2` and the modules are
as if only `c2` had been registered; in a following dispatch every call made on behalf of
`M` is a call of `c2` (so `c1` is not called for `M` unless it is `c2`), and there is
exactly one such call when `M` is loaded and `c2` is not null; one registration changes
neither the interface table nor the entry points of `M`, nor any other module, nor the
module list, nor the trace. -/
theorem register_callback_last_write_wins (s : State) (M : ModulePtr) (c1 c2 : Nat)
    (A : ModulePtr) (R : Nat) (F : Bool) :
    ((ObpSetModuleOperationCallback (ObpSetModuleOperationCallback s M c1) M c2).heap
        M).ModuleOperationCallback = c2 ∧
      (ObpSetModuleOperationCallback (ObpSetModuleOperationCallback s M c1) M c2).heap =
        (ObpSetModuleOperationCallback s M c2).heap ∧
      (∀ ev ∈ (ObpDispatchModuleOperationCallbacks
            (ObpSetModuleOperationCallback (ObpSetModuleOperationCallback s M c1) M c2)
            A R F).trace.drop s.trace.length,
          Event.isCallbackOf M ev = true →
          ev = Event.Callback M c2 A (operationType (s.heap A) R) F) ∧
      (c1 ≠ c2 → ∀ A' ty F',
        Event.Callback M c1 A' ty F' ∉ (ObpDispatchModuleOperationCallbacks
            (ObpSetModuleOperationCallback (ObpSetModuleOperationCallback s M c1) M c2)
            A R F).trace.drop s.trace.length) ∧
      (M ∈ s.g_LdrModuleList → c2 ≠ 0 →
        ((ObpDispatchModuleOperationCallbacks
            (ObpSetModuleOperationCallback (ObpSetModuleOperationCallback s M c1) M c2)
            A R F).trace.drop s.trace.length).countP (Event.isCallbackOf M) = 1) ∧
      ((ObpSetModuleOperationCallback s M c1).heap M).InterfaceTable =
        (s.heap M).InterfaceTable ∧
      AurieModule.ModulePreinitialize ((ObpSetModuleOperationCallback s M c1).heap M) =
        AurieModule.ModulePreinitialize (s.heap M) ∧
      ((ObpSetModuleOperationCallback s M c1).heap M).ModuleInitialize =
        (s.heap M).ModuleInitialize ∧
      ((ObpSetModuleOperationCallback s M c1).heap M).ModuleUnload =
        (s.heap M).ModuleUnload ∧
      (∀ m, m ≠ M → (ObpSetModuleOperationCallback s M c1).heap m = s.heap m) ∧
      (ObpSetModuleOperationCallback s M c1).g_LdrModuleList = s.g_LdrModuleList ∧
      (ObpSetModuleOperationCallback s M c1).trace = s.trace := by
  have hev : ∀ ev ∈ (ObpDispatchModuleOperationCallbacks
        (ObpSetModuleOperationCallback (ObpSetModuleOperationCallback s M c1) M c2)
        A R F).trace.drop s.trace.length,
      Event.isCallbackOf M ev = true →
      ev = Event.Callback M c2 A (operationType (s.heap A) R) F := by
    intro ev hmem hM
    have h := isCallbackOf_dispatch_event
      (ObpSetModuleOperationCallback (ObpSetModuleOperationCallback s M c1) M c2)
      A R F M ev hmem hM
    rw [setCallback_operationType, setCallback_operationType, setCallback_heap_same] at h
    exact h
  refine ⟨by rw [setCallback_heap_same], ?_, hev, ?_, ?_, ?_, ?_, ?_, ?_, ?_, rfl, rfl⟩
  · funext m
    by_cases h : m = M
    · subst h
      rw [setCallback_heap_same, setCallback_heap_same, setCallback_heap_same]
    · rw [setCallback_heap_other _ _ _ _ h, setCallback_heap_other _ _ _ _ h,
        setCallback_heap_other _ _ _ _ h]
  · intro hne A' ty F' hmem
    have h := hev _ hmem (by simp [Event.isCallbackOf])
    injection h with _ h₂
    exact hne h₂
  · intro hM hc2
    have h := countP_dispatch_events
      (ObpSetModuleOperationCallback (ObpSetModuleOperationCallback s M c1) M c2) A R F M
    have hlen : (ObpSetModuleOperationCallback
        (ObpSetModuleOperationCallback s M c1) M c2).trace.length = s.trace.length := rfl
    rw [hlen] at h
    rw [h]
    refine List.count_eq_one_of_mem (s.nodup.filter _) (List.mem_filter.mpr ⟨hM, ?_⟩)
    simp only [hasCallback, setCallback_heap_same]
    exact decide_eq_true hc2
  · rw [setCallback_heap_same]
  · rw [setCallback_heap_same]
  · rw [setCallback_heap_same]
  · rw [setCallback_heap_same]
  · intro m hm
    exact setCallback_heap_other s M c1 m hm

/-- Witness of C12: module `2` of the sample state registers `7`, then `8`; the dispatch
that follows calls `8` once for module `2` and never `7`. -/
theorem register_callback_last_write_wins_witness :
    ((ObpDispatchModuleOperationCallbacks
        (ObpSetModuleOperationCallback (ObpSetModuleOperationCallback sampleState 2 7) 2 8)
        1 201 false).trace.drop sampleState.trace.length).countP (Event.isCallbackOf 2) = 1 ∧
      Event.Callback 2 7 1 AURIE_OPERATION_PREINITIALIZE false ∉
        (ObpDispatchModuleOperationCallbacks
          (ObpSetModuleOperationCallback (ObpSetModuleOperationCallback sampleState 2 7) 2 8)
          1 201 false).trace.drop sampleState.trace.length :=
  ⟨(register_callback_last_write_wins sampleState 2 7 8 1 201 false).2.2.2.2.1
      (by decide) (by decide),
    (register_callback_last_write_wins sampleState 2 7 8 1 201 false).2.2.2.1 (by decide)
      1 AURIE_OPERATION_PREINITIALIZE false⟩

/-! ## Effects of the unconditional destroy and of a successful publication -/

/-- C15: when `N` does not exist and `Create()` succeeds, `ObCreateInterface` makes the one
call `Create()`, returns success, and the table of `M` becomes its old table followed by
the single entry (`N`, `obj`, owner `M`); the other fields of `M`, every other module and
the module list are unchanged. -/
theorem publish_success_effect (s : State) (M : ModulePtr) (obj : InterfacePtr) (N : CStr)
    (hN : ObInterfaceExists s N = false)
    (hC : AurieSuccess (s.CreateStatus obj s.trace) = true) :
    (ObCreateInterface s M obj N).1 = AURIE_SUCCESS ∧
      (ObCreateInterface s M obj N).2.trace = s.trace ++ [Event.Create obj] ∧
      ((ObCreateInterface s M obj N).2.heap M).InterfaceTable =
        (s.heap M).InterfaceTable ++
          [{ Interface := obj, InterfaceName := N, OwnerModule := M }] ∧
      ((ObCreateInterface s M obj N).2.heap M).ModuleOperationCallback =
        (s.heap M).ModuleOperationCallback ∧
      AurieModule.ModulePreinitialize ((ObCreateInterface s M obj N).2.heap M) =
        AurieModule.ModulePreinitialize (s.heap M) ∧
      ((ObCreateInterface s M obj N).2.heap M).ModuleInitialize =
        (s.heap M).ModuleInitialize ∧
      ((ObCreateInterface s M obj N).2.heap M).ModuleUnload = (s.heap M).ModuleUnload ∧
      (∀ m, m ≠ M → (ObCreateInterface s M obj N).2.heap m = s.heap m) ∧
      (ObCreateInterface s M obj N).2.g_LdrModuleList = s.g_LdrModuleList := by
  rw [publish_success_eq s M obj N hN hC]
  refine ⟨rfl, rfl, ?_, ?_, ?_, ?_, ?_, ?_, rfl⟩
  · simp only [writeModule_same]
  · simp only [writeModule_same]
  · simp only [writeModule_same]
  · simp only [writeModule_same]
  · simp only [writeModule_same]
  · intro m hm
    simp only [writeModule_other _ _ _ _ hm]

/-- Witness of C15: module `1` of the sample state publishes the object `11` as "Gfx"
after its "Net". -/
theorem publish_success_effect_witness :
    ((ObCreateInterface sampleState 1 11 nameGfx).2.heap 1).InterfaceTable =
        [{ Interface := 10, InterfaceName := nameNet, OwnerModule := 1 },
          { Interface := 11, InterfaceName := nameGfx, OwnerModule := 1 }] ∧
      (ObCreateInterface sampleState 1 11 nameGfx).2.trace = [Event.Create 11] :=
  ⟨(publish_success_effect sampleState 1 11 nameGfx (by decide) (by decide)).2.2.1,
    (publish_success_effect sampleState 1 11 nameGfx (by decide) (by decide)).2.1⟩

/-! ## Publication onto a module that is not loaded -/

theorem publish_reaches_create (s : State) (M : ModulePtr) (obj : InterfacePtr) (N : CStr)
    (hN : ObInterfaceExists s N = false) :
    (ObCreateInterface s M obj N).1 = s.CreateStatus obj s.trace ∧
      (ObCreateInterface s M obj N).2.trace = s.trace ++ [Event.Create obj] := by
  cases hC : AurieSuccess (s.CreateStatus obj s.trace) with
  | false => simp [ObCreateInterface, hN, hC]
  | true =>
    rw [publish_success_eq s M obj N hN hC]
    have : s.CreateStatus obj s.trace = AURIE_SUCCESS := by
      simpa [AurieSuccess] using hC
    exact ⟨this.symm, rfl⟩

theorem getInterface_of_not_exists (s : State) (N : CStr)
    (h : ObInterfaceExists s N = false) :
    ObGetInterface s N = .error AURIE_OBJECT_NOT_FOUND := by
  simp [ObGetInterface, lookup_error_of_not_exists s N h]

/-- C19: when the module `M` is not in `g_LdrModuleList`, `N` does not exist and `Create()`
succeeds, `ObCreateInterface` still calls `Create()`, appends the entry to the table of `M`
and returns success; yet `ObInterfaceExists N` is still false and `ObGetInterface N` still
fails with `AURIE_OBJECT_NOT_FOUND`, so that any further publication of `N` passes the
name check: it calls `Create()` again and returns the status of that call, success when
the call succeeds. -/
theorem publish_unloaded_module (s : State) (M : ModulePtr) (obj : InterfacePtr) (N : CStr)
    (hM : M ∉ s.g_LdrModuleList) (hN : ObInterfaceExists s N = false)
    (hC : AurieSuccess (s.CreateStatus obj s.trace) = true) :
    (ObCreateInterface s M obj N).1 = AURIE_SUCCESS ∧
      (ObCreateInterface s M obj N).2.trace = s.trace ++ [Event.Create obj] ∧
      ((ObCreateInterface s M obj N).2.heap M).InterfaceTable =
        (s.heap M).InterfaceTable ++
          [{ Interface := obj, InterfaceName := N, OwnerModule := M }] ∧
      ObInterfaceExists (ObCreateInterface s M obj N).2 N = false ∧
      ObGetInterface (ObCreateInterface s M obj N).2 N = .error AURIE_OBJECT_NOT_FOUND ∧
      (∀ M' obj',
        (ObCreateInterface (ObCreateInterface s M obj N).2 M' obj' N).1 =
          (ObCreateInterface s M obj N).2.CreateStatus obj'
            (ObCreateInterface s M obj N).2.trace ∧
        (ObCreateInterface (ObCreateInterface s M obj N).2 M' obj' N).2.trace =
          (ObCreateInterface s M obj N).2.trace ++ [Event.Create obj']) ∧
      (∀ M' obj',
        AurieSuccess ((ObCreateInterface s M obj N).2.CreateStatus obj'
          (ObCreateInterface s M obj N).2.trace) = true →
        (ObCreateInterface (ObCreateInterface s M obj N).2 M' obj' N).1 = AURIE_SUCCESS) := by
  have hgone : ObInterfaceExists (ObCreateInterface s M obj N).2 N = false := by
    rw [publish_success_eq s M obj N hN hC]
    rw [exists_false_iff] at hN ⊢
    intro m hm e he
    have hm' : m ∈ s.g_LdrModuleList := hm
    have hne : m ≠ M := fun h => hM (h ▸ hm')
    simp only [writeModule_other _ _ _ _ hne] at he
    exact hN m hm' e he
  refine ⟨?_, ?_, ?_, hgone, getInterface_of_not_exists _ _ hgone,
    fun M' obj' => publish_reaches_create _ M' obj' N hgone, ?_⟩
  · rw [publish_success_eq s M obj N hN hC]
  · rw [publish_success_eq s M obj N hN hC]
  · rw [publish_success_eq s M obj N hN hC]
    simp only [writeModule_same]
  · intro M' obj' hC'
    rw [publish_success_eq _ M' obj' N hgone hC']

/-- Witness of C19: module `5` is not loaded in the sample state; it publishes the object
`11` as "Gfx" twice, both times with success, and "Gfx" is never found. -/
theorem publish_unloaded_module_witness :
    (ObCreateInterface sampleState 5 11 nameGfx).1 = AURIE_SUCCESS ∧
      ObInterfaceExists (ObCreateInterface sampleState 5 11 nameGfx).2 nameGfx = false ∧
      ObGetInterface (ObCreateInterface sampleState 5 11 nameGfx).2 nameGfx =
        .error AURIE_OBJECT_NOT_FOUND ∧
      (ObCreateInterface (ObCreateInterface sampleState 5 11 nameGfx).2 5 11 nameGfx).1 =
        AURIE_SUCCESS := by
  have h := publish_unloaded_module sampleState 5 11 nameGfx (by decide) (by decide)
    (by decide)
  exact ⟨h.1, h.2.2.2.1, h.2.2.2.2.1, h.2.2.2.2.2.2 5 11 (by decide)⟩

/-! ## Confinement of a destruction, agreement of the comparison modes -/

theorem lookup_afterDestroy_other (s : State) (owner : ModulePtr) (obj : InterfacePtr)
    (Y : CStr) (M2 : ModulePtr) (x : AurieInterfaceTableEntry) (hne : M2 ≠ owner)
    (h : ObpLookupInterfaceOwner s Y true = .ok (M2, x)) :
    ObpLookupInterfaceOwner (afterDestroy s owner obj) Y true = .ok (M2, x) := by
  unfold ObpLookupInterfaceOwner at h ⊢
  rw [lookupLoop_ok_iff] at h ⊢
  obtain ⟨l₁, l₂, t₁, t₂, hl, hno, ht, hpre, hme⟩ := h
  refine ⟨l₁, l₂, t₁, t₂, hl, ?_, ?_, hpre, hme⟩
  · intro m hm y hy
    exact hno m hm y (mem_table_afterDestroy s owner obj m y hy).1
  · simp only [afterDestroy, writeModule_other _ _ _ _ hne]
    exact ht

/-- C17: when the lookup of `N` finds the entry `e` in the module `owner`, the destruction
by name and the destruction by the owner succeed (a destruction by any other module does
not) and leave every module other than `owner` exactly as it was; in particular an entry
of another module whose interface is the very object destroyed stays in its table, and if
`ObGetInterface` found that entry under its name before, it still returns the object
under that name afterwards. -/
theorem destroy_confined_to_owner (s : State) (N : CStr) (owner : ModulePtr)
    (e : AurieInterfaceTableEntry)
    (hfind : ObpLookupInterfaceOwner s N true = .ok (owner, e)) :
    (ObpDestroyInterfaceByName s N).1 = AURIE_SUCCESS ∧
      (ObDestroyInterface s owner N).1 = AURIE_SUCCESS ∧
      (∀ M, (ObDestroyInterface s M N).1 = AURIE_SUCCESS → M = owner) ∧
      (∀ m, m ≠ owner →
        (ObpDestroyInterfaceByName s N).2.heap m = s.heap m ∧
        (ObDestroyInterface s owner N).2.heap m = s.heap m) ∧
      (∀ M2 x, M2 ≠ owner → x ∈ (s.heap M2).InterfaceTable → x.Interface = e.Interface →
        x ∈ ((ObpDestroyInterfaceByName s N).2.heap M2).InterfaceTable ∧
        x ∈ ((ObDestroyInterface s owner N).2.heap M2).InterfaceTable) ∧
      (∀ M2 x, M2 ≠ owner → x.Interface = e.Interface →
        ObpLookupInterfaceOwner s x.InterfaceName true = .ok (M2, x) →
        ObGetInterface (ObpDestroyInterfaceByName s N).2 x.InterfaceName =
          .ok e.Interface ∧
        ObGetInterface (ObDestroyInterface s owner N).2 x.InterfaceName =
          .ok e.Interface) := by
  have hother : ∀ m, m ≠ owner → (afterDestroy s owner e.Interface).heap m = s.heap m := by
    intro m hm
    simp only [afterDestroy, writeModule_other _ _ _ _ hm]
  refine ⟨?_, ?_, ?_, ?_, ?_, ?_⟩
  · rw [destroy_by_name_eq s N owner e hfind]
  · rw [destroy_by_owner_eq s N owner e hfind]
  · intro M hM
    by_contra hne
    have : ObDestroyInterface s M N = (AURIE_ACCESS_DENIED, s) := by
      simp [ObDestroyInterface, hfind, Ne.symm hne]
    rw [this] at hM
    cases hM
  · intro m hm
    rw [destroy_by_name_eq s N owner e hfind, destroy_by_owner_eq s N owner e hfind]
    exact ⟨hother m hm, hother m hm⟩
  · intro M2 x hne hx _
    rw [destroy_by_name_eq s N owner e hfind, destroy_by_owner_eq s N owner e hfind]
    simp only [hother M2 hne]
    exact ⟨hx, hx⟩
  · intro M2 x hne hxi hlook
    rw [destroy_by_name_eq s N owner e hfind, destroy_by_owner_eq s N owner e hfind]
    have h := getInterface_of_lookup _ _ _ _
      (lookup_afterDestroy_other s owner e.Interface x.InterfaceName M2 x hne hlook)
    rw [hxi] at h
    exact ⟨h, h⟩

/-- Witness of C17: in `sharedState` the object `10` is "Net" in module `1` and "Gfx" in
module `2`; after the destruction of "Net" the entry "Gfx" is still in the table of module
`2` and still found. -/
theorem destroy_confined_to_owner_witness :
    ({ Interface := 10, InterfaceName := nameGfx, OwnerModule := 2 } :
        AurieInterfaceTableEntry) ∈
        ((ObpDestroyInterfaceByName sharedState nameNet).2.heap 2).InterfaceTable ∧
      ObGetInterface (ObDestroyInterface sharedState 1 nameNet).2 nameGfx = .ok 10 :=
  ⟨((destroy_confined_to_owner sharedState nameNet 1
      { Interface := 10, InterfaceName := nameNet, OwnerModule := 1 } (by rfl)).2.2.2.2.1 2
      { Interface := 10, InterfaceName := nameGfx, OwnerModule := 2 } (by decide)
      (by decide) (by rfl)).1,
    ((destroy_confined_to_owner sharedState nameNet 1
      { Interface := 10, InterfaceName := nameNet, OwnerModule := 1 } (by rfl)).2.2.2.2.2 2
      { Interface := 10, InterfaceName := nameGfx, OwnerModule := 2 } (by decide)
      (by rfl) (by rfl)).2⟩

/-- C18: in a state with registry-wide name uniqueness, when the exact lookup of `N`
succeeds with a module and an entry, the case-insensitive lookup of `N` succeeds with the
same module and the same entry; and in every state the success of the exact lookup implies
the success of the case-insensitive one. -/
theorem lookup_modes_agree (s : State) (N : CStr) :
    (UniqueNames s → ∀ m e, ObpLookupInterfaceOwner s N false = .ok (m, e) →
        ObpLookupInterfaceOwner s N true = .ok (m, e)) ∧
      (∀ m e, ObpLookupInterfaceOwner s N false = .ok (m, e) →
        ∃ m' e', ObpLookupInterfaceOwner s N true = .ok (m', e')) := by
  constructor
  · intro hU m e h
    unfold ObpLookupInterfaceOwner at h ⊢
    rw [lookupLoop_ok_iff] at h ⊢
    obtain ⟨l₁, l₂, t₁, t₂, hl, -, ht, -, hme⟩ := h
    have hname : e.InterfaceName = N := by simpa [NameMatch] using hme
    have hm : m ∈ s.g_LdrModuleList := by rw [hl]; simp
    have hnd := s.nodup
    rw [hl, List.nodup_middle, List.nodup_cons] at hnd
    refine ⟨l₁, l₂, t₁, t₂, hl, ?_, ht, ?_, ?_⟩
    · intro m' hm' x hx hmatch
      have hne : m' ≠ m := fun h => hnd.1 (h ▸ List.mem_append_left _ hm')
      have hxe : EqIgnoreCase x.InterfaceName e.InterfaceName := by
        rw [hname]; simpa [NameMatch] using hmatch
      exact unique_other_entry s hU m e t₁ t₂ hm ht m'
        (by rw [hl]; exact List.mem_append_left _ hm') x hx (Or.inl hne) hxe
    · intro x hx hmatch
      have hxe : EqIgnoreCase x.InterfaceName e.InterfaceName := by
        rw [hname]; simpa [NameMatch] using hmatch
      exact unique_other_entry s hU m e t₁ t₂ hm ht m hm x
        (by rw [ht]; exact List.mem_append_left _ hx)
        (Or.inr (List.mem_append_left _ hx)) hxe
    · rw [hname]
      simp [NameMatch, EqIgnoreCase]
  · intro m e h
    unfold ObpLookupInterfaceOwner at h
    rw [lookupLoop_ok_iff] at h
    obtain ⟨l₁, l₂, t₁, t₂, hl, -, ht, -, hme⟩ := h
    have hname : e.InterfaceName = N := by simpa [NameMatch] using hme
    obtain ⟨-, M, -, -, e', -, -, -, -, -, -, hok⟩ := lookup_ok_of_match s N true
      ⟨m, by rw [hl]; simp, e, by rw [ht]; simp, by rw [hname]; simp [NameMatch, EqIgnoreCase]⟩
    exact ⟨M, e', hok⟩

/-- Witness of C18: the exact and the case-insensitive lookup of "Net" in the sample state
return the same entry of module `1`. -/
theorem lookup_modes_agree_witness :
    ObpLookupInterfaceOwner sampleState nameNet true =
      .ok (1, { Interface := 10, InterfaceName := nameNet, OwnerModule := 1 }) :=
  (lookup_modes_agree sampleState nameNet).1 (by decide) 1
    { Interface := 10, InterfaceName := nameNet, OwnerModule := 1 } (by rfl)

/-! ## Owner invariant -/

/-- What an operation can do to the tables: nothing, append one entry owned by the
publishing module to that module's table, or filter the table of one module. -/
theorem run_table_cases (s : State) (op : Op) :
    (∀ m, ((op.run s).heap m).InterfaceTable = (s.heap m).InterfaceTable) ∨
      (∃ M obj N, op = .Publish M obj N ∧
        ((op.run s).heap M).InterfaceTable = (s.heap M).InterfaceTable ++
          [{ Interface := obj, InterfaceName := N, OwnerModule := M }] ∧
        ∀ m, m ≠ M → ((op.run s).heap m).InterfaceTable = (s.heap m).InterfaceTable) ∨
      (∃ M obj,
        ((op.run s).heap M).InterfaceTable =
          (s.heap M).InterfaceTable.filter (fun entry => !(entry.Interface == obj)) ∧
        ∀ m, m ≠ M → ((op.run s).heap m).InterfaceTable = (s.heap m).InterfaceTable) := by
  have hdestroyed : ∀ M obj,
      (((afterDestroy s M obj).heap M).InterfaceTable =
        (s.heap M).InterfaceTable.filter (fun entry => !(entry.Interface == obj)) ∧
      ∀ m, m ≠ M → ((afterDestroy s M obj).heap m).InterfaceTable =
        (s.heap m).InterfaceTable) := by
    intro M obj
    refine ⟨by simp only [afterDestroy, writeModule_same], fun m hm => ?_⟩
    simp only [afterDestroy, writeModule_other _ _ _ _ hm]
  cases op with
  | Publish M obj N =>
    simp only [Op.run]
    cases hN : ObInterfaceExists s N with
    | true =>
      left
      have : ObCreateInterface s M obj N = (AURIE_OBJECT_ALREADY_EXISTS, s) := by
        simp [ObCreateInterface, hN]
      rw [this]; exact fun _ => rfl
    | false =>
      cases hC : AurieSuccess (s.CreateStatus obj s.trace) with
      | false =>
        left
        have : ObCreateInterface s M obj N =
            (s.CreateStatus obj s.trace, { s with trace := s.trace ++ [Event.Create obj] }) := by
          simp [ObCreateInterface, hN, hC]
        rw [this]; exact fun _ => rfl
      | true =>
        right; left
        refine ⟨M, obj, N, rfl, ?_, ?_⟩
        · rw [publish_success_eq s M obj N hN hC]
          simp only [writeModule_same]
        · intro m hm
          rw [publish_success_eq s M obj N hN hC]
          simp only [writeModule_other _ _ _ _ hm]
  | Exists N => exact Or.inl fun _ => rfl
  | Get N => exact Or.inl fun _ => rfl
  | DestroyByOwner M N =>
    simp only [Op.run]
    cases hf : ObpLookupInterfaceOwner s N true with
    | error st =>
      left
      have : ObDestroyInterface s M N = (st, s) := by simp [ObDestroyInterface, hf]
      rw [this]; exact fun _ => rfl
    | ok r =>
      obtain ⟨owner, e⟩ := r
      by_cases ho : owner = M
      · subst ho
        right; right
        rw [destroy_by_owner_eq s N owner e hf]
        exact ⟨owner, e.Interface, hdestroyed owner e.Interface⟩
      · left
        have : ObDestroyInterface s M N = (AURIE_ACCESS_DENIED, s) := by
          simp [ObDestroyInterface, hf, ho]
        rw [this]; exact fun _ => rfl
  | DestroyByName N =>
    simp only [Op.run]
    cases hf : ObpLookupInterfaceOwner s N true with
    | error st =>
      left
      have : ObpDestroyInterfaceByName s N = (st, s) := by
        simp [ObpDestroyInterfaceByName, hf]
      rw [this]; exact fun _ => rfl
    | ok r =>
      obtain ⟨owner, e⟩ := r
      right; right
      rw [destroy_by_name_eq s N owner e hf]
      exact ⟨owner, e.Interface, hdestroyed owner e.Interface⟩
  | RegisterCallback M cb => exact Or.inl fun m => setCallback_table s M cb m
  | Dispatch A R F => exact Or.inl fun _ => rfl

theorem run_table_shape (s : State) (op : Op) (m : ModulePtr) :
    ∃ (p : AurieInterfaceTableEntry → Bool) (extra : List AurieInterfaceTableEntry),
      ((op.run s).heap m).InterfaceTable = (s.heap m).InterfaceTable.filter p ++ extra ∧
      (extra = [] ∨ ∃ obj N, op = .Publish m obj N ∧
        extra = [{ Interface := obj, InterfaceName := N, OwnerModule := m }]) := by
  have hsame : ∀ t : List AurieInterfaceTableEntry, t = t.filter (fun _ => true) ++ [] := by
    intro t; simp
  rcases run_table_cases s op with h | ⟨M, obj, N, hop, hM, hother⟩ | ⟨M, obj, hM, hother⟩
  · exact ⟨fun _ => true, [], by rw [h m]; exact hsame _, Or.inl rfl⟩
  · by_cases hm : m = M
    · subst hm
      refine ⟨fun _ => true, _, ?_, Or.inr ⟨obj, N, hop, rfl⟩⟩
      rw [hM]; simp
    · exact ⟨fun _ => true, [], by rw [hother m hm]; exact hsame _, Or.inl rfl⟩
  · by_cases hm : m = M
    · subst hm
      exact ⟨fun entry => !(entry.Interface == obj), [], by rw [hM]; simp, Or.inl rfl⟩
    · exact ⟨fun _ => true, [], by rw [hother m hm]; exact hsame _, Or.inl rfl⟩

/-- C16: the owner invariant (every entry of a module's table names that module as its
owner) is preserved by every operation of the call surface, among them the publication,
the two destructions and the callback registration; and after any operation the table of
any module is its old table with some entries removed, the others kept as they are and in
their order, followed by at most one new entry, which a publication onto that module
appends with that module as owner: no entry that remains is modified. -/
theorem owner_invariant_preserved :
    (∀ (s : State) (op : Op), OwnerInvariant s → OwnerInvariant (op.run s)) ∧
      (∀ (s : State) (op : Op) (m : ModulePtr),
        ∃ (p : AurieInterfaceTableEntry → Bool) (extra : List AurieInterfaceTableEntry),
          ((op.run s).heap m).InterfaceTable = (s.heap m).InterfaceTable.filter p ++ extra ∧
          (extra = [] ∨ ∃ obj N, op = .Publish m obj N ∧
            extra = [{ Interface := obj, InterfaceName := N, OwnerModule := m }])) := by
  refine ⟨?_, run_table_shape⟩
  intro s op hinv m e he
  obtain ⟨p, extra, htab, hextra⟩ := run_table_shape s op m
  rw [htab] at he
  rcases List.mem_append.mp he with h | h
  · exact hinv m e (List.mem_filter.mp h).1
  · rcases hextra with rfl | ⟨obj, N, -, rfl⟩
    · exact absurd h (List.not_mem_nil _)
    · rw [List.mem_singleton] at h
      rw [h]

theorem ownerInvariant_sampleState : OwnerInvariant sampleState := by
  intro m e he
  by_cases hm : m = 1
  · subst hm
    have he' : e ∈ [({ Interface := 10, InterfaceName := nameNet, OwnerModule := 1 } :
        AurieInterfaceTableEntry)] := he
    rw [List.mem_singleton] at he'
    rw [he']
  · have hfresh : sampleState.heap m = freshModule := by
      show sampleHeap m = freshModule
      unfold sampleHeap
      split
      · exact absurd rfl hm
      · rfl
    rw [hfresh] at he
    exact absurd he (List.not_mem_nil _)

/-- Witness of C16: the owner invariant of the sample state survives the publication of
"Gfx" by module `2`. -/
theorem owner_invariant_preserved_witness :
    OwnerInvariant ((Op.Publish 2 11 nameGfx).run sampleState) :=
  owner_invariant_preserved.1 sampleState (Op.Publish 2 11 nameGfx)
    ownerInvariant_sampleState

/-! ## Unload -/

theorem lookup_after_publish (s : State) (M : ModulePtr) (obj : InterfacePtr) (N N' : CStr)
    (hM : M ∈ s.g_LdrModuleList) (hN : ObInterfaceExists s N = false)
    (hC : AurieSuccess (s.CreateStatus obj s.trace) = true) (hN' : EqIgnoreCase N' N) :
    ObpLookupInterfaceOwner (ObCreateInterface s M obj N).2 N' true =
      .ok (M, { Interface := obj, InterfaceName := N, OwnerModule := M }) := by
  rw [publish_success_eq s M obj N hN hC]
  rw [exists_false_iff] at hN
  obtain ⟨l₁, l₂, hl⟩ := List.append_of_mem hM
  have hnd := s.nodup
  rw [hl, List.nodup_middle, List.nodup_cons] at hnd
  unfold ObpLookupInterfaceOwner
  rw [lookupLoop_ok_iff]
  refine ⟨l₁, l₂, (s.heap M).InterfaceTable, [], hl, ?_, ?_, ?_, EqIgnoreCase.symm hN'⟩
  · intro m' hm' x hx hmatch
    have hne : m' ≠ M := fun h => hnd.1 (h ▸ List.mem_append_left _ hm')
    simp only [writeModule_other _ _ _ _ hne] at hx
    exact hN m' (by rw [hl]; exact List.mem_append_left _ hm') x hx
      (EqIgnoreCase.trans hmatch hN')
  · simp only [writeModule_same]
  · intro x hx hmatch
    exact hN M hM x hx (EqIgnoreCase.trans hmatch hN')

theorem unload_table_self (s : State) (A : ModulePtr) (f : Bool) :
    ((UnloadModule s A f).heap A).InterfaceTable = [] := by
  simp [UnloadModule, writeModule_same]

theorem unload_heap_other (s : State) (A : ModulePtr) (f : Bool) (m : ModulePtr)
    (h : m ≠ A) : (UnloadModule s A f).heap m = s.heap m := by
  simp [UnloadModule, writeModule_other _ _ _ _ h]

theorem mem_unload_list (s : State) (A : ModulePtr) (f : Bool) (m : ModulePtr)
    (h : m ∈ (UnloadModule s A f).g_LdrModuleList) : m ∈ s.g_LdrModuleList := by
  cases f
  · simpa [UnloadModule] using h
  · have h' : m ∈ s.g_LdrModuleList.filter (fun m => !(m == A)) := by
      simpa [UnloadModule] using h
    exact (List.mem_filter.mp h').1

theorem mem_unload_list_of_ne (s : State) (A : ModulePtr) (f : Bool) (m : ModulePtr)
    (hm : m ∈ s.g_LdrModuleList) (hne : m ≠ A) : m ∈ (UnloadModule s A f).g_LdrModuleList := by
  cases f
  · simpa [UnloadModule] using hm
  · simp [UnloadModule, hm, hne]

/-- After the unload of `A`, an entry of a loaded module is an entry that a loaded module
other than `A` held before. -/
theorem mem_table_unload (s : State) (A : ModulePtr) (f : Bool) (m : ModulePtr)
    (x : AurieInterfaceTableEntry) (hm : m ∈ (UnloadModule s A f).g_LdrModuleList)
    (hx : x ∈ ((UnloadModule s A f).heap m).InterfaceTable) :
    m ≠ A ∧ m ∈ s.g_LdrModuleList ∧ x ∈ (s.heap m).InterfaceTable := by
  by_cases h : m = A
  · subst h
    rw [unload_table_self] at hx
    exact absurd hx (List.not_mem_nil _)
  · rw [unload_heap_other s A f m h] at hx
    exact ⟨h, mem_unload_list s A f m hm, hx⟩

/-- C13: with `A` and `B` loaded, after `A` publishes `obj` under the absent name `N`
with a successful `Create()`, `ObGetInterface N` (which takes no caller, so it is what `B`
calls) returns `obj`; after `A` unloads, its table is empty, `B` is still loaded and
untouched, `ObGetInterface N` fails with `AURIE_OBJECT_NOT_FOUND` and `ObInterfaceExists N`
is false; and, the names being unique before, the same holds for the name of every entry
that the table of `A` held when it unloaded. -/
theorem unload_scenario (s : State) (A B : ModulePtr) (obj : InterfacePtr) (N : CStr)
    (RemoveFromList : Bool) (hA : A ∈ s.g_LdrModuleList) (hB : B ∈ s.g_LdrModuleList)
    (hAB : B ≠ A) (hN : ObInterfaceExists s N = false)
    (hC : AurieSuccess (s.CreateStatus obj s.trace) = true) :
    (ObCreateInterface s A obj N).1 = AURIE_SUCCESS ∧
      ObGetInterface (ObCreateInterface s A obj N).2 N = .ok obj ∧
      ((UnloadModule (ObCreateInterface s A obj N).2 A RemoveFromList).heap A).InterfaceTable
        = [] ∧
      B ∈ (UnloadModule (ObCreateInterface s A obj N).2 A RemoveFromList).g_LdrModuleList ∧
      (UnloadModule (ObCreateInterface s A obj N).2 A RemoveFromList).heap B = s.heap B ∧
      ObGetInterface (UnloadModule (ObCreateInterface s A obj N).2 A RemoveFromList) N =
        .error AURIE_OBJECT_NOT_FOUND ∧
      ObInterfaceExists (UnloadModule (ObCreateInterface s A obj N).2 A RemoveFromList) N =
        false ∧
      (UniqueNames s → ∀ e ∈ ((ObCreateInterface s A obj N).2.heap A).InterfaceTable,
        ∀ N', EqIgnoreCase N' e.InterfaceName →
          ObGetInterface (UnloadModule (ObCreateInterface s A obj N).2 A RemoveFromList) N' =
            .error AURIE_OBJECT_NOT_FOUND ∧
          ObInterfaceExists (UnloadModule (ObCreateInterface s A obj N).2 A RemoveFromList) N' =
            false) := by
  have hpub := publish_success_eq s A obj N hN hC
  have hother : ∀ m, m ≠ A → (ObCreateInterface s A obj N).2.heap m = s.heap m := by
    intro m hm
    rw [hpub]
    simp only [writeModule_other _ _ _ _ hm]
  have hlist : (ObCreateInterface s A obj N).2.g_LdrModuleList = s.g_LdrModuleList := by
    rw [hpub]
  have hgone : ObInterfaceExists
      (UnloadModule (ObCreateInterface s A obj N).2 A RemoveFromList) N = false := by
    rw [exists_false_iff] at hN ⊢
    intro m hm x hx
    obtain ⟨hne, hm₁, hx₁⟩ := mem_table_unload _ A RemoveFromList m x hm hx
    rw [hother m hne] at hx₁
    rw [hlist] at hm₁
    exact hN m hm₁ x hx₁
  refine ⟨by rw [hpub], ?_, unload_table_self _ _ _, ?_, ?_,
    getInterface_of_not_exists _ _ hgone, hgone, ?_⟩
  · exact getInterface_of_lookup _ _ _ _
      (lookup_after_publish s A obj N N hA hN hC rfl)
  · exact mem_unload_list_of_ne _ A RemoveFromList B (by rw [hlist]; exact hB) hAB
  · rw [unload_heap_other _ A RemoveFromList B hAB, hother B hAB]
  · intro hU e he N' hN'
    have hU₁ : UniqueNames (ObCreateInterface s A obj N).2 := uniqueNames_publish s A obj N hU
    obtain ⟨t₁, t₂, ht⟩ := List.append_of_mem he
    have hgone' : ObInterfaceExists
        (UnloadModule (ObCreateInterface s A obj N).2 A RemoveFromList) N' = false := by
      rw [exists_false_iff]
      intro m hm x hx hmatch
      obtain ⟨hne, hm₁, hx₁⟩ := mem_table_unload _ A RemoveFromList m x hm hx
      exact unique_other_entry _ hU₁ A e t₁ t₂ (by rw [hlist]; exact hA) ht m hm₁ x hx₁
        (Or.inl hne) (EqIgnoreCase.trans hmatch hN')
    exact ⟨getInterface_of_not_exists _ _ hgone', hgone'⟩

/-- Witness of C13: module `1` publishes "Net" onto empty tables and unloads; "net" is no
longer found. -/
theorem unload_scenario_witness :
    ObGetInterface (ObCreateInterface emptyState 1 10 nameNet).2 nameNet = .ok 10 ∧
      ObGetInterface (UnloadModule (ObCreateInterface emptyState 1 10 nameNet).2 1 true)
        nameNet = .error AURIE_OBJECT_NOT_FOUND ∧
      ObInterfaceExists (UnloadModule (ObCreateInterface emptyState 1 10 nameNet).2 1 true)
        nameNetLower = false := by
  have h := unload_scenario emptyState 1 2 10 nameNet true (by decide) (by decide)
    (by decide) (by decide) (by decide)
  exact ⟨h.2.1, h.2.2.2.2.2.1,
    (h.2.2.2.2.2.2.2 (by decide) { Interface := 10, InterfaceName := nameNet, OwnerModule := 1 }
      (by decide) nameNetLower (by decide)).2⟩

end Aurie
